import Mathlib

/-!
# Verification of the librescan enrichment and recommendation pipeline

This file gives a shallow embedding of the core pipeline of the repository:

* `api/lib/googleBooks.js` — book-metadata cache (`checkCache`, `storeInCache`),
  the catalog client (`fetchFromGoogleBooks`) and the enrichment orchestrator
  (`enrichBooks`);
* `api/lib/qwenAI.js` — the confidence scorer (`computeConfidence`) and the
  vision-response strategy parser (`parseAIResponse`);
* `recommendationAI.js` — the recommendation-response strategy parser
  (`parseRecommendations`), its validation pass (`validateAndClean`) and
  `truncateReason`;
* `api/generate-recommendations.js` — the recommendation store upsert and
  `cleanupOldRecommendations`.

JavaScript strings are modelled as Lean `String` (a list of characters);
`trim`/`toLowerCase` are modelled over the ASCII range, which is the range the
repository's data exercises.  JavaScript `null`/`undefined`/falsy handling is
made explicit through `Option` and the `jsStrOrNull`/`jsOrStr` helpers.
Database tables are modelled as lists of rows; the SQL `ON CONFLICT` upserts
become explicit first-match updates, and the unique indexes of the schema
become `≤ 1 matching row` hypotheses where a claim needs them.  Exceptions are
modelled by `Option` results (`none` = the JavaScript code threw).
-/

namespace LibreScan

/-! ## JavaScript string primitives -/

/-- The whitespace characters recognised by the model of `String.prototype.trim`
(space, tab, line feed, carriage return — the forms occurring in the data). -/
def jsIsWs (c : Char) : Bool :=
  c = ' ' || c = '\t' || c = '\n' || c = '\r'

/-- Model of `String.prototype.trim`: drop leading and trailing whitespace. -/
def jsTrim (s : String) : String :=
  ⟨((s.data.dropWhile jsIsWs).reverse.dropWhile jsIsWs).reverse⟩

/-- Model of `String.prototype.toLowerCase` (ASCII range). -/
def jsToLower (s : String) : String :=
  ⟨s.data.map Char.toLower⟩

/-- JavaScript `x || null` for an optional string: the empty string is falsy
and collapses to `null` (`none`). -/
def jsStrOrNull : Option String → Option String
  | some s => if s = "" then none else some s
  | none => none

/-- JavaScript `x || d` for an optional string with a string default
(`null`, `undefined` and `""` all select the default). -/
def jsOrStr (x : Option String) (d : String) : String :=
  match x with
  | some s => if s = "" then d else s
  | none => d

/-- JavaScript `a || b || null` over optional strings (empty strings falsy). -/
def jsStrOr2 (a b : Option String) : Option String :=
  match jsStrOrNull a with
  | some s => some s
  | none => jsStrOrNull b

/-- `true` iff `pat` is an initial segment of `s` (model of a
`startsWith`-style test used to state the URL-upgrade property). -/
def leadsWith (pat s : String) : Bool :=
  decide (s.data.take pat.data.length = pat.data)

/-- Split `cs` at the first occurrence of the pattern `pat`, returning the
part before the occurrence and the part after it. -/
def splitAtSubGo (pat pre cs : List Char) : Option (List Char × List Char) :=
  if pat.isPrefixOf cs then some (pre.reverse, cs.drop pat.length)
  else
    match cs with
    | [] => none
    | c :: rest => splitAtSubGo pat (c :: pre) rest

/-- First occurrence of a substring: `some (before, after)` when `cs`
decomposes as `before ++ pat ++ after` at the leftmost position. -/
def splitAtSub (pat cs : List Char) : Option (List Char × List Char) :=
  splitAtSubGo pat [] cs

/-- Model of `String.prototype.replace` with a *string* pattern: replaces the
first occurrence only (this is exactly what
`coverUrl.replace('http://', 'https://')` does). -/
def jsReplaceFirst (s pat rep : String) : String :=
  match splitAtSub pat.data s.data with
  | some (pre, post) => ⟨pre ++ rep.data ++ post⟩
  | none => s

/-- Model of `String.prototype.lastIndexOf` for a single character:
`-1` when the character does not occur. -/
def jsLastIndexOf (cs : List Char) (c : Char) : Int :=
  match splitAtSub [c] cs.reverse with
  | some (pre, _) => (cs.length : Int) - 1 - (pre.length : Int)
  | none => -1

/-- Model of `s.endsWith suf`. -/
def strEndsWith (s suf : String) : Bool :=
  decide (s.data.drop (s.data.length - suf.data.length) = suf.data)

/-! ## Generic first-match upsert

Both `storeInCache` (`ON CONFLICT (title_lower, author_lower) DO UPDATE`) and
the recommendation insert (`ON CONFLICT (scan_id) DO UPDATE`) follow the same
pattern: if a row matches the conflict target, update that row in place,
otherwise append a fresh row.  With the unique index the database guarantees
at most one matching row; the model updates the first match. -/

/-- Update the first element satisfying `p`. -/
def updFirst (p : α → Bool) (f : α → α) : List α → List α
  | [] => []
  | x :: xs => if p x then f x :: xs else x :: updFirst p f xs

/-- `INSERT ... ON CONFLICT DO UPDATE`: update the first row matching the
conflict predicate `p` with `f`, or append the fresh row `new`. -/
def upsertFirst (p : α → Bool) (f : α → α) (new : α) (l : List α) : List α :=
  if l.any p then updFirst p f l else l ++ [new]

/-! ## The book-metadata cache (`googleBooks.js`) -/

/-- The metadata record extracted from the catalog and stored in the cache:
`{ isbn, cover_url, description, categories }`. -/
structure Metadata where
  isbn : Option String
  cover_url : Option String
  description : Option String
  categories : List String
deriving DecidableEq

/-- A row of the `book_cache` table. -/
structure CacheRow where
  cache_id : String
  title : String
  author : String
  title_lower : String
  author_lower : String
  isbn : Option String
  cover_url : Option String
  description : Option String
  categories : List String
deriving DecidableEq

/-- The normalized composite cache key computed by both `checkCache` and
`storeInCache`: `title.toLowerCase().trim()` and
`(author || '').toLowerCase().trim()`. -/
def cacheKey (title : String) (author : Option String) : String × String :=
  (jsTrim (jsToLower title), jsTrim (jsToLower (jsOrStr author "")))

/-- The key columns of a stored row, as the unique index
`(title_lower, author_lower)` sees them. -/
def rowKey (r : CacheRow) : String × String :=
  (r.title_lower, r.author_lower)

/-- Boolean key match used for lookups against the composite index. -/
def keyMatches (k : String × String) (r : CacheRow) : Bool :=
  decide (rowKey r = k)

/-- The hit returned by `checkCache`
(`SELECT isbn, cover_url, description, categories`). -/
structure CacheHit where
  isbn : Option String
  cover_url : Option String
  description : Option String
  categories : List String
deriving DecidableEq

/-- `checkCache(title, author)`: normalize the inputs and return the first row
matching the composite key, projected to the four metadata columns;
`none` models the SQL query returning zero rows. -/
def checkCache (cache : List CacheRow) (title : String) (author : Option String) :
    Option CacheHit :=
  (cache.find? (keyMatches (cacheKey title author))).map
    (fun r => ⟨r.isbn, r.cover_url, r.description, r.categories⟩)

/-- The `DO UPDATE SET isbn = ..., cover_url = ..., description = ...,
categories = ...` clause: overwrite the four metadata columns only. -/
def updMeta (m : Metadata) (r : CacheRow) : CacheRow :=
  { r with
    isbn := jsStrOrNull m.isbn
    cover_url := jsStrOrNull m.cover_url
    description := jsStrOrNull m.description
    categories := m.categories }

/-- The freshly inserted row of `storeInCache` (original-casing title/author
for display, normalized columns for the index, metadata with JavaScript
`|| null` coercions, `|| []` for categories). -/
def mkCacheRow (fresh title : String) (author : Option String) (m : Metadata) : CacheRow :=
  { cache_id := fresh
    title := title
    author := jsOrStr author ""
    title_lower := (cacheKey title author).1
    author_lower := (cacheKey title author).2
    isbn := jsStrOrNull m.isbn
    cover_url := jsStrOrNull m.cover_url
    description := jsStrOrNull m.description
    categories := m.categories }

/-- `storeInCache(title, author, metadata)`: `INSERT ... ON CONFLICT
(title_lower, author_lower) DO UPDATE SET <metadata columns>`.  `fresh` is the
`uuidv4()` generated for the insertion attempt. -/
def storeInCache (fresh title : String) (author : Option String) (m : Metadata)
    (cache : List CacheRow) : List CacheRow :=
  upsertFirst (keyMatches (cacheKey title author)) (updMeta m)
    (mkCacheRow fresh title author m) cache

/-! ## The recommendation store (`generate-recommendations.js`) -/

/-- A row of the `recommendations` table. -/
structure RecRow where
  recommendation_id : String
  device_id : String
  scan_id : String
  book_data : String
  saved : Bool
  created_at : Int
deriving DecidableEq

/-- The `ON CONFLICT (scan_id)` target. -/
def scanMatches (scan : String) (r : RecRow) : Bool :=
  decide (r.scan_id = scan)

/-- The `DO UPDATE SET book_data = $4` clause: only the payload column moves. -/
def setBookData (payload : String) (r : RecRow) : RecRow :=
  { r with book_data := payload }

/-- The freshly inserted recommendation row
(`VALUES ($1, $2, $3, $4, FALSE)`; `created_at` defaults to the insert time). -/
def mkRecRow (fresh device scan payload : String) (now : Int) : RecRow :=
  ⟨fresh, device, scan, payload, false, now⟩

/-- The handler's `INSERT INTO recommendations ... ON CONFLICT (scan_id)
DO UPDATE SET book_data = $4`. -/
def storeRecommendation (fresh device scan payload : String) (now : Int)
    (tbl : List RecRow) : List RecRow :=
  upsertFirst (scanMatches scan) (setBookData payload)
    (mkRecRow fresh device scan payload now) tbl

/-- The `WHERE saved = FALSE AND created_at < NOW() - INTERVAL '24 hours'`
condition of `cleanupOldRecommendations` (time measured in hours). -/
def isOldUnsaved (now : Int) (r : RecRow) : Bool :=
  (!r.saved) && decide (r.created_at < now - 24)

/-- `cleanupOldRecommendations()`: delete every unsaved row older than the
24-hour retention window and report how many rows were deleted
(`result.rowCount || 0`). -/
def cleanupOldRecommendations (now : Int) (tbl : List RecRow) : List RecRow × Nat :=
  (tbl.filter (fun r => !isOldUnsaved now r), (tbl.filter (isOldUnsaved now)).length)

/-! ## The enrichment orchestrator (`googleBooks.js`, `enrichBooks`)

`enrichBooks` loops over the recognized books sequentially, threading the
`book_cache` table state.  Per-book external effects are oracles indexed by
the loop position: `lookupThrows i` models the `checkCache` database query
throwing, and `CatalogOutcome` models the result of
`fetchFromGoogleBooks` — metadata found, a definitive "no results" (`null`),
or an exception inside the `try` block (`thrown`, caught by the per-book
`catch`).  The event trace records every cache lookup, external API call and
cache write so that the no-API-key claim can state that none happen. -/

/-- A recognized book entering enrichment (`{ title, author, confidence }`). -/
structure RecBook where
  title : String
  author : Option String
  confidence : ℚ
deriving DecidableEq

/-- An output element of `enrichBooks`: the spread `...book` plus the five
added fields. -/
structure EnrichedBook where
  book : RecBook
  isbn : Option String
  cover_url : Option String
  description : Option String
  categories : List String
  enriched : Bool
deriving DecidableEq

/-- Outcome of the catalog call for one book. -/
inductive CatalogOutcome where
  | found (m : Metadata)
  | notFound
  | thrown
deriving DecidableEq

/-- Observable side effects of the enrichment loop. -/
inductive CacheEvent where
  | lookup (k : String × String)
  | apiCall (title : String)
  | write (k : String × String)
deriving DecidableEq

/-- The per-book fallback record pushed by the `catch` arm and by the
missing-API-key path: original fields plus all-null metadata and
`enriched: false`. -/
def fallbackBook (b : RecBook) : EnrichedBook :=
  ⟨b, none, none, none, [], false⟩

/-- One iteration of the enrichment loop: check the cache (which may throw),
on a hit merge the cached metadata, on a miss call the catalog and either
store-and-merge the metadata, store a null record and mark not enriched, or —
if the `try` block threw — push the fallback record without touching the
cache. -/
def enrichOne (lookupThrows : Bool) (outcome : CatalogOutcome) (fresh : String)
    (cache : List CacheRow) (b : RecBook) :
    EnrichedBook × List CacheRow × List CacheEvent :=
  if lookupThrows then
    (fallbackBook b, cache, [.lookup (cacheKey b.title b.author)])
  else
    match checkCache cache b.title b.author with
    | some hit =>
      (⟨b, hit.isbn, hit.cover_url, hit.description, hit.categories, true⟩, cache,
        [.lookup (cacheKey b.title b.author)])
    | none =>
      match outcome with
      | .found m =>
        (⟨b, m.isbn, m.cover_url, m.description, m.categories, true⟩,
          storeInCache fresh b.title b.author m cache,
          [.lookup (cacheKey b.title b.author), .apiCall b.title,
            .write (cacheKey b.title b.author)])
      | .notFound =>
        (⟨b, none, none, none, [], false⟩,
          storeInCache fresh b.title b.author ⟨none, none, none, []⟩ cache,
          [.lookup (cacheKey b.title b.author), .apiCall b.title,
            .write (cacheKey b.title b.author)])
      | .thrown =>
        (fallbackBook b, cache,
          [.lookup (cacheKey b.title b.author), .apiCall b.title])

/-- The sequential enrichment loop starting at position `i`. -/
def enrichGo (lt : Nat → Bool) (oc : Nat → CatalogOutcome) (ids : Nat → String) :
    Nat → List CacheRow → List RecBook →
    List EnrichedBook × List CacheRow × List CacheEvent
  | _, cache, [] => ([], cache, [])
  | i, cache, b :: rest =>
    let step := enrichOne (lt i) (oc i) (ids i) cache b
    let next := enrichGo lt oc ids (i + 1) step.2.1 rest
    (step.1 :: next.1, next.2.1, step.2.2 ++ next.2.2)

/-- `enrichBooks(books)`: if `GOOGLE_BOOKS_API_KEY` is missing (falsy), map
every book to the fallback record without any cache or catalog interaction;
otherwise run the sequential loop over the books. -/
def enrichBooks (apiKey : Option String) (lt : Nat → Bool)
    (oc : Nat → CatalogOutcome) (ids : Nat → String)
    (cache : List CacheRow) (books : List RecBook) :
    List EnrichedBook × List CacheRow × List CacheEvent :=
  if jsStrOrNull apiKey = none then
    (books.map fallbackBook, cache, [])
  else
    enrichGo lt oc ids 0 cache books

/-- The cache state after the loop has consumed the first `j` books. -/
def enrichCacheBefore (lt : Nat → Bool) (oc : Nat → CatalogOutcome)
    (ids : Nat → String) (cache : List CacheRow) (books : List RecBook) (j : Nat) :
    List CacheRow :=
  (enrichGo lt oc ids 0 cache (books.take j)).2.1

/-! ## The catalog client (`googleBooks.js`, `fetchFromGoogleBooks`) -/

/-- One entry of `volumeInfo.industryIdentifiers`: `{ type, identifier }`. -/
structure IndustryId where
  idType : String
  identifier : String
deriving DecidableEq

/-- `volumeInfo.imageLinks`. -/
structure ImageLinks where
  thumbnail : Option String
  smallThumbnail : Option String
deriving DecidableEq

/-- The fields of `volumeInfo` the extractor reads. -/
structure VolumeInfo where
  industryIdentifiers : Option (List IndustryId)
  imageLinks : Option ImageLinks
  description : Option String
  categories : Option (List String)
deriving DecidableEq

/-- The parsed response body (`items` holds the `volumeInfo` of each item). -/
structure GBooksData where
  totalItems : Option Int
  items : Option (List VolumeInfo)
deriving DecidableEq

/-- The possible outcomes of the HTTP interaction: a non-2xx status
(`!response.ok`), the `AbortError` fired by the 5-second timeout, any other
network failure, a body that fails to parse as JSON, or a parsed body. -/
inductive FetchOutcome where
  | httpError (status : Nat)
  | timeout
  | networkError
  | jsonError
  | success (data : GBooksData)
deriving DecidableEq

/-- The field-extraction policy applied to the first result's `volumeInfo`:
`isbn13?.identifier || isbn10?.identifier || null` over the identifier list,
`imageLinks.thumbnail || imageLinks.smallThumbnail || null` followed by the
`replace('http://', 'https://')` upgrade, `description || null`, and
`categories || []`. -/
def extractVolumeMetadata (vi : VolumeInfo) : Metadata :=
  let isbn :=
    match vi.industryIdentifiers with
    | none => none
    | some ids =>
      jsStrOr2 ((ids.find? (fun i => decide (i.idType = "ISBN_13"))).map (·.identifier))
        ((ids.find? (fun i => decide (i.idType = "ISBN_10"))).map (·.identifier))
  let coverUrl :=
    match vi.imageLinks with
    | none => none
    | some il =>
      match jsStrOr2 il.thumbnail il.smallThumbnail with
      | some u => some (jsReplaceFirst u "http://" "https://")
      | none => none
  ⟨isbn, coverUrl, jsStrOrNull vi.description, vi.categories.getD []⟩

/-- `fetchFromGoogleBooks(title, author, apiKey)` over an HTTP outcome oracle:
every error path and the zero-results path return `null` (`none`); a parsed
body with at least one item and a nonzero `totalItems` yields the extracted
metadata of the first item.  (`title`, `author` and `apiKey` only shape the
request URL, which the outcome oracle abstracts.) -/
def fetchFromGoogleBooks (title : String) (author : Option String) (apiKey : String)
    (outcome : FetchOutcome) : Option Metadata :=
  match outcome with
  | .httpError _ => none
  | .timeout => none
  | .networkError => none
  | .jsonError => none
  | .success data =>
    match data.items with
    | none => none
    | some [] => none
    | some (vi :: _) =>
      if data.totalItems = some 0 then none
      else some (extractVolumeMetadata vi)

/-! ## A JSON value model and a model of `JSON.parse`

Both response parsers lean on `JSON.parse`; the model below is a standard
recursive-descent JSON parser over the character list of the input, with a
fuel argument (any fuel beyond the nesting depth gives the same answer, and
the wrapper passes `length + 8`).  Numbers keep their lexeme — the parsers
under verification never compute with numeric values, only with truthiness.
`\uXXXX` escapes map to the code point (surrogate pairs are out of scope for
the repository's data). -/

/-- JSON values.  Object fields keep every parsed pair in order; property
access (`jsObjGet`) and `Object.values` (`jsObjValues`) apply the
last-duplicate-wins rule of `JSON.parse`. -/
inductive Json where
  | null
  | bool (b : Bool)
  | num (lexeme : String)
  | str (s : String)
  | arr (elems : List Json)
  | obj (fields : List (String × Json))

/-- Hexadecimal digit value. -/
def hexVal (c : Char) : Option Nat :=
  if '0' ≤ c ∧ c ≤ '9' then some (c.toNat - 48)
  else if 'a' ≤ c ∧ c ≤ 'f' then some (c.toNat - 87)
  else if 'A' ≤ c ∧ c ≤ 'F' then some (c.toNat - 55)
  else none

/-- JSON string body after the opening quote: plain characters (control
characters rejected), the eight escapes, and `\uXXXX`. -/
def parseStringBody (acc cs : List Char) : Option (String × List Char) :=
  match cs with
  | [] => none
  | '"' :: rest => some (⟨acc.reverse⟩, rest)
  | '\\' :: 'u' :: a :: b :: c :: d :: rest => do
    let ha ← hexVal a
    let hb ← hexVal b
    let hc ← hexVal c
    let hd ← hexVal d
    parseStringBody (Char.ofNat (((ha * 16 + hb) * 16 + hc) * 16 + hd) :: acc) rest
  | '\\' :: e :: rest =>
    match e with
    | '"' => parseStringBody ('"' :: acc) rest
    | '\\' => parseStringBody ('\\' :: acc) rest
    | '/' => parseStringBody ('/' :: acc) rest
    | 'b' => parseStringBody ('\x08' :: acc) rest
    | 'f' => parseStringBody ('\x0c' :: acc) rest
    | 'n' => parseStringBody ('\n' :: acc) rest
    | 'r' => parseStringBody ('\r' :: acc) rest
    | 't' => parseStringBody ('\t' :: acc) rest
    | _ => none
  | c :: rest => if c.toNat < 32 then none else parseStringBody (c :: acc) rest

/-- Fraction part of a JSON number (empty when there is no `.`). -/
def parseFrac (cs : List Char) : Option (List Char × List Char) :=
  match cs with
  | '.' :: rest =>
    let fd := rest.takeWhile Char.isDigit
    if fd.isEmpty then none else some ('.' :: fd, rest.dropWhile Char.isDigit)
  | _ => some ([], cs)

/-- Exponent part of a JSON number (empty when there is no `e`/`E`). -/
def parseExp (cs : List Char) : Option (List Char × List Char) :=
  match cs with
  | c :: rest =>
    if c = 'e' ∨ c = 'E' then
      let (sgn, rest2) : List Char × List Char :=
        match rest with
        | '+' :: r => (['+'], r)
        | '-' :: r => (['-'], r)
        | _ => ([], rest)
      let ed := rest2.takeWhile Char.isDigit
      if ed.isEmpty then none else some (c :: (sgn ++ ed), rest2.dropWhile Char.isDigit)
    else some ([], cs)
  | [] => some ([], [])

/-- Lex a JSON number, returning its lexeme (leading zeros rejected by the
grammar: after `0` only `.`/`e` may extend the mantissa). -/
def parseNumberLex (cs : List Char) : Option (String × List Char) :=
  let (sign, cs1) : List Char × List Char :=
    match cs with
    | '-' :: rest => (['-'], rest)
    | _ => ([], cs)
  match cs1 with
  | '0' :: rest => do
    let (f, cs3) ← parseFrac rest
    let (e, cs4) ← parseExp cs3
    pure (⟨sign ++ '0' :: (f ++ e)⟩, cs4)
  | c :: _ =>
    if c.isDigit then do
      let (f, cs3) ← parseFrac (cs1.dropWhile Char.isDigit)
      let (e, cs4) ← parseExp cs3
      pure (⟨sign ++ cs1.takeWhile Char.isDigit ++ f ++ e⟩, cs4)
    else none
  | [] => none

mutual

/-- Parse one JSON value (leading whitespace skipped). -/
def parseJsonVal : Nat → List Char → Option (Json × List Char)
  | 0, _ => none
  | fuel + 1, cs =>
    match cs.dropWhile jsIsWs with
    | 'n' :: 'u' :: 'l' :: 'l' :: rest => some (.null, rest)
    | 't' :: 'r' :: 'u' :: 'e' :: rest => some (.bool true, rest)
    | 'f' :: 'a' :: 'l' :: 's' :: 'e' :: rest => some (.bool false, rest)
    | '"' :: rest => (parseStringBody [] rest).map (fun p => (.str p.1, p.2))
    | '[' :: rest =>
      match rest.dropWhile jsIsWs with
      | ']' :: rest3 => some (.arr [], rest3)
      | _ => (parseJsonElems fuel rest).map (fun p => (.arr p.1, p.2))
    | '{' :: rest =>
      match rest.dropWhile jsIsWs with
      | '}' :: rest3 => some (.obj [], rest3)
      | _ => (parseJsonFields fuel rest).map (fun p => (.obj p.1, p.2))
    | c :: rest =>
      if c = '-' ∨ c.isDigit then
        (parseNumberLex (c :: rest)).map (fun p => (.num p.1, p.2))
      else none
    | [] => none
termination_by structural fuel _ => fuel

/-- Parse the comma-separated elements of a non-empty array up to `]`. -/
def parseJsonElems : Nat → List Char → Option (List Json × List Char)
  | 0, _ => none
  | fuel + 1, cs => do
    let (v, cs1) ← parseJsonVal fuel cs
    match cs1.dropWhile jsIsWs with
    | ',' :: cs3 => do
      let (vs, cs4) ← parseJsonElems fuel cs3
      pure (v :: vs, cs4)
    | ']' :: cs3 => pure ([v], cs3)
    | _ => none
termination_by structural fuel _ => fuel

/-- Parse the comma-separated fields of a non-empty object up to the closing
brace. -/
def parseJsonFields : Nat → List Char → Option (List (String × Json) × List Char)
  | 0, _ => none
  | fuel + 1, cs =>
    match cs.dropWhile jsIsWs with
    | '"' :: rest => do
      let (k, cs2) ← parseStringBody [] rest
      match cs2.dropWhile jsIsWs with
      | ':' :: cs4 => do
        let (v, cs5) ← parseJsonVal fuel cs4
        match cs5.dropWhile jsIsWs with
        | ',' :: cs7 => do
          let (fs, cs8) ← parseJsonFields fuel cs7
          pure ((k, v) :: fs, cs8)
        | '}' :: cs7 => pure ([(k, v)], cs7)
        | _ => none
      | _ => none
    | _ => none
termination_by structural fuel _ => fuel

end

/-- `JSON.parse`: parse one value and require only whitespace to follow;
any other outcome is the thrown `SyntaxError`, modelled as `none`. -/
def jsonParse (s : String) : Option Json :=
  match parseJsonVal (s.length + 8) s.data with
  | some (v, rest) => if rest.dropWhile jsIsWs = [] then some v else none
  | none => none

/-- JavaScript property access on a parsed object: last duplicate wins. -/
def jsObjGet (kvs : List (String × Json)) (k : String) : Option Json :=
  ((kvs.filter (fun p => decide (p.1 = k))).getLast?).map (·.2)

/-- `Object.values` of a parsed object: one value per distinct key, in first
occurrence order, each the last duplicate's value. -/
def jsObjValues (kvs : List (String × Json)) : List Json :=
  ((kvs.map Prod.fst).eraseDups).filterMap (jsObjGet kvs)

/-- Zero test on a number lexeme (`0`, `-0`, `0.00`, `0e5`, ... are falsy). -/
def numIsZero (lexeme : String) : Bool :=
  ((lexeme.data.takeWhile (fun c => !(c = 'e' || c = 'E'))).filter
    (fun c => c.isDigit && !(c = '0'))).isEmpty

/-- JavaScript truthiness of a parsed JSON value. -/
def jsTruthy : Json → Bool
  | .null => false
  | .bool b => b
  | .num lx => !numIsZero lx
  | .str s => !(decide (s = ""))
  | .arr _ => true
  | .obj _ => true

/-- `rec.<field>` on a parsed value: accessing a property of `null` throws
(`none`); primitives and arrays yield `undefined` (`some none`). -/
def jsField : Json → String → Option (Option Json)
  | .null, _ => none
  | .obj kvs, k => some (jsObjGet kvs k)
  | _, _ => some none

/-- `true` iff the value is an array (the `Array.isArray` test of
strategy 4). -/
def isArrJson : Json → Bool
  | .arr _ => true
  | _ => false

/-! ## The vision-response parser (`qwenAI.js`, `parseAIResponse`) -/

/-- The substring from the first occurrence of `l` to the last occurrence of
`r` after it — the match of the greedy regexes `/\[([\s\S]*)\]/` and
`/\{([\s\S]*)\}/` (scanning restarts only when the first `l` has no later
`r`, in which case no later start can succeed either). -/
def extractDelimited (l r : Char) (cs : List Char) : Option (List Char) :=
  match splitAtSub [l] cs with
  | none => none
  | some (_, afterL) =>
    match splitAtSub [r] afterL.reverse with
    | none => none
    | some (preR, _) =>
      some (l :: (afterL.take (afterL.length - preR.length - 1) ++ [r]))

/-- Strategy 1 of `parseAIResponse`: `JSON.parse` the whole trimmed text;
accept a bare array, or the array under the `books` key of an object. -/
def qwenStrategy1 (trimmed : String) : Option (List Json) :=
  match jsonParse trimmed with
  | some (.arr xs) => some xs
  | some (.obj kvs) =>
    match jsObjGet kvs "books" with
    | some (.arr xs) => some xs
    | _ => none
  | _ => none

/-- Strategy 2 of `parseAIResponse`: parse the first-`[`-to-last-`]`
substring; accept an array. -/
def qwenStrategy2 (trimmed : String) : Option (List Json) :=
  match extractDelimited '[' ']' trimmed.data with
  | some sub =>
    match jsonParse ⟨sub⟩ with
    | some (.arr xs) => some xs
    | _ => none
  | none => none

/-- The lazy bracket scan of `/```(?:json)?\s*(\[[\s\S]*?\])\s*```/`: the
content ends at the first `]` that is followed (after whitespace) by a
closing fence. -/
def qwenFenceScan (acc cs : List Char) : Option (List Char) :=
  match cs with
  | [] => none
  | c :: rest =>
    if c = ']' && "```".data.isPrefixOf (rest.dropWhile jsIsWs) then
      some (acc.reverse ++ [']'])
    else
      qwenFenceScan (c :: acc) rest

/-- The fenced-block match of `parseAIResponse` strategy 3: after the first
` ``` ` (optionally tagged `json`) and whitespace, a lazily matched
`[...]` followed by whitespace and a closing fence. -/
def qwenFence (cs : List Char) : Option (List Char) :=
  match splitAtSub "```".data cs with
  | none => none
  | some (_, afterOpen) =>
    let afterTag :=
      if "json".data.isPrefixOf afterOpen then afterOpen.drop 4 else afterOpen
    match afterTag.dropWhile jsIsWs with
    | '[' :: rest => qwenFenceScan ['['] rest
    | _ => none

/-- Strategy 3 of `parseAIResponse`: parse the fenced array; accept an
array. -/
def qwenStrategy3 (trimmed : String) : Option (List Json) :=
  match qwenFence trimmed.data with
  | some content =>
    match jsonParse ⟨content⟩ with
    | some (.arr xs) => some xs
    | _ => none
  | none => none

/-- `parseAIResponse(responseText)`: empty or whitespace-only input yields
`[]`; otherwise the three strategies run in order on the trimmed text, the
first success returns, and `[]` is returned when all fail.  There is no
object-field fallback strategy. -/
def parseAIResponse (s : String) : List Json :=
  if jsTrim s = "" then []
  else
    match qwenStrategy1 (jsTrim s) with
    | some xs => xs
    | none =>
      match qwenStrategy2 (jsTrim s) with
      | some xs => xs
      | none =>
        match qwenStrategy3 (jsTrim s) with
        | some xs => xs
        | none => []

/-! ## The recommendation-response parser (`recommendationAI.js`)

`parseRecommendations` runs four strategies; each strategy's
`return validateAndClean(parsed)` sits inside the strategy's `try`, so a
validation exception also falls through to the next strategy.  The
validation pass and `truncateReason` are modelled exactly, including the
`NUM_RECOMMENDATIONS = 8` cap of the current source. -/

/-- A cleaned recommendation record. -/
structure CleanRec where
  title : String
  author : String
  reason : String
deriving DecidableEq

/-- `Math.max` of the three `lastIndexOf` sentence-boundary probes. -/
def sentenceBoundary (cut : List Char) : Int :=
  max (jsLastIndexOf cut '.') (max (jsLastIndexOf cut '!') (jsLastIndexOf cut '?'))

/-- `truncateReason(reason)`: trim, take the first 200 characters, and cut at
the last sentence-ending punctuation when it lies beyond index 80, otherwise
return the (trimmed) 200-character cutoff with an appended ellipsis. -/
def truncateReason (reason : String) : String :=
  let trimmed := jsTrim reason
  let cutoff := trimmed.data.take 200
  let lastSentenceEnd := sentenceBoundary cutoff
  if lastSentenceEnd > 80 then ⟨trimmed.data.take (lastSentenceEnd + 1).toNat⟩
  else jsTrim ⟨cutoff⟩ ++ "..."

/-- The filter predicate of `validateAndClean`
(`rec.title && typeof rec.title === "string" && rec.title.trim().length > 0`);
`none` models the predicate itself throwing (`rec` being `null`). -/
def titleOk (rec : Json) : Option Bool := do
  let t ← jsField rec "title"
  match t with
  | some (.str s) => pure (decide (s ≠ "") && decide ((jsTrim s).length > 0))
  | _ => pure false

/-- `(value || default)` for a JavaScript expression that is then treated as
a string: a falsy value selects the default, a truthy non-string makes the
subsequent `.trim()` throw (`none`). -/
def jsStringOrDefault (v : Option Json) (d : String) : Option String :=
  match v with
  | none => some d
  | some j =>
    if jsTruthy j then
      match j with
      | .str s => some s
      | _ => none
    else some d

/-- The map body of `validateAndClean`: trim the title, default and trim the
author, strip a trailing case-insensitive " by <author>" from the title when
the author is known, truncate the reason. -/
def cleanRec (rec : Json) : Option CleanRec := do
  let tOpt ← jsField rec "title"
  match tOpt with
  | some (.str s) =>
    let title0 := jsTrim s
    let aOpt ← jsField rec "author"
    let author0 ← jsStringOrDefault aOpt "Unknown"
    let author := jsTrim author0
    let title :=
      if author ≠ "Unknown" then
        let suffix := " by " ++ author
        if strEndsWith (jsToLower title0) (jsToLower suffix) then
          jsTrim ⟨title0.data.take (title0.data.length - suffix.data.length)⟩
        else title0
      else title0
    let rOpt ← jsField rec "reason"
    let reason ← jsStringOrDefault rOpt ""
    pure ⟨title, author, truncateReason reason⟩
  | _ => none

/-- `Array.prototype.filter` with a predicate that can throw. -/
def jsFilterM (p : α → Option Bool) : List α → Option (List α)
  | [] => some []
  | x :: xs => do
    let b ← p x
    let rest ← jsFilterM p xs
    pure (if b then x :: rest else rest)

/-- `Array.prototype.map` with a body that can throw. -/
def jsMapM (f : α → Option β) : List α → Option (List β)
  | [] => some []
  | x :: xs => do
    let y ← f x
    let rest ← jsMapM f xs
    pure (y :: rest)

/-- `validateAndClean(recommendations)`: filter on usable titles, clean each
survivor, and cap the list with `.slice(0, NUM_RECOMMENDATIONS)` where
`NUM_RECOMMENDATIONS = 8`. -/
def validateAndClean (recs : List Json) : Option (List CleanRec) := do
  let kept ← jsFilterM titleOk recs
  let cleaned ← jsMapM cleanRec kept
  pure (cleaned.take 8)

/-- The lazy fence of `/```(?:json)?\s*([\s\S]*?)```/`: content up to the
next fence. -/
def recFence (cs : List Char) : Option (List Char) :=
  match splitAtSub "```".data cs with
  | none => none
  | some (_, afterOpen) =>
    let afterTag :=
      if "json".data.isPrefixOf afterOpen then afterOpen.drop 4 else afterOpen
    match splitAtSub "```".data (afterTag.dropWhile jsIsWs) with
    | none => none
    | some (content, _) => some content

/-- Strategy 1 of `parseRecommendations`: direct parse of the trimmed text;
only a non-empty bare array is accepted, and its validation runs inside the
same `try`. -/
def recStrategy1 (s : String) : Option (List CleanRec) :=
  match jsonParse (jsTrim s) with
  | some (.arr xs) => if xs.length > 0 then validateAndClean xs else none
  | _ => none

/-- Strategy 2 of `parseRecommendations`: the first-`[`-to-last-`]`
substring of the raw text. -/
def recStrategy2 (s : String) : Option (List CleanRec) :=
  match extractDelimited '[' ']' s.data with
  | some sub =>
    match jsonParse ⟨sub⟩ with
    | some (.arr xs) => if xs.length > 0 then validateAndClean xs else none
    | _ => none
  | none => none

/-- Strategy 3 of `parseRecommendations`: the trimmed interior of the first
fenced block. -/
def recStrategy3 (s : String) : Option (List CleanRec) :=
  match recFence s.data with
  | some content =>
    match jsonParse (jsTrim ⟨content⟩) with
    | some (.arr xs) => if xs.length > 0 then validateAndClean xs else none
    | _ => none
  | none => none

/-- Strategy 4 of `parseRecommendations`: the first-`{`-to-last-`}`
substring parsed as an object; its first array-valued property is used when
non-empty. -/
def recStrategy4 (s : String) : Option (List CleanRec) :=
  match extractDelimited '{' '}' s.data with
  | some sub =>
    match jsonParse ⟨sub⟩ with
    | some (.obj kvs) =>
      match (jsObjValues kvs).find? isArrJson with
      | some (.arr xs) => if xs.length > 0 then validateAndClean xs else none
      | _ => none
    | _ => none
  | none => none

/-- `parseRecommendations(rawResponse)`: the four strategies in order, first
success wins, `[]` when all fail. -/
def parseRecommendations (s : String) : List CleanRec :=
  match recStrategy1 s with
  | some r => r
  | none =>
    match recStrategy2 s with
    | some r => r
    | none =>
      match recStrategy3 s with
      | some r => r
      | none =>
        match recStrategy4 s with
        | some r => r
        | none => []

/-- Modelled from the claim wording of C3 (for comparison only): the claim's
strategy 1 accepts a bare array *or an object exposing an array-valued
field*, followed by the bracket-substring, fenced-block and brace-substring
strategies, stopping at the first success, with `[]` when all fail. -/
def specC3Parser (s : String) : List Json :=
  let trimmed := jsTrim s
  let s1 : Option (List Json) :=
    match jsonParse trimmed with
    | some (.arr xs) => some xs
    | some (.obj kvs) =>
      match (jsObjValues kvs).find? isArrJson with
      | some (.arr xs) => some xs
      | _ => none
    | _ => none
  let s2 : Option (List Json) :=
    match extractDelimited '[' ']' trimmed.data with
    | some sub =>
      match jsonParse ⟨sub⟩ with
      | some (.arr xs) => some xs
      | _ => none
    | none => none
  let s3 : Option (List Json) :=
    match recFence trimmed.data with
    | some content =>
      match jsonParse (jsTrim ⟨content⟩) with
      | some (.arr xs) => some xs
      | _ => none
    | none => none
  let s4 : Option (List Json) :=
    match extractDelimited '{' '}' trimmed.data with
    | some sub =>
      match jsonParse ⟨sub⟩ with
      | some (.obj kvs) =>
        match (jsObjValues kvs).find? isArrJson with
        | some (.arr xs) => some xs
        | _ => none
      | _ => none
    | none => none
  (((s1.orElse fun _ => s2).orElse fun _ => s3).orElse fun _ => s4).getD []

/-! ## The confidence scorer (`qwenAI.js`, `computeConfidence`) -/

/-- A recognized-book record as the scorer sees it: optional `title`,
`author` and `certainty` string fields (absent = `undefined`/`null`). -/
structure AIBook where
  title : Option String
  author : Option String
  certainty : Option String
deriving DecidableEq

/-- JavaScript `Math.round` (round half toward positive infinity) as a map on
rationals returning an integer value. -/
def jsRound (x : ℚ) : ℚ :=
  ((⌊x + 1/2⌋ : ℤ) : ℚ)

/-- The `hasAuthor` test of `computeConfidence`:
`book.author && book.author.trim() !== "" &&
book.author.trim().toLowerCase() !== "unknown"`. -/
def hasRealAuthor : Option String → Bool
  | some a => decide (a ≠ "") && decide (jsTrim a ≠ "") &&
      decide (jsToLower (jsTrim a) ≠ "unknown")
  | none => false

/-- `computeConfidence(book)`: base score from the normalized certainty tag
(`(book.certainty || "medium").toString().trim().toLowerCase()`), then the
four sequential adjustments, then clamp to `[0, 1]` and round to two decimal
places.  The `score0 ... score4` bindings mirror the sequential reassignments
of the JavaScript `score` variable. -/
def computeConfidence (b : AIBook) : ℚ :=
  let certainty := jsToLower (jsTrim (jsOrStr b.certainty "medium"))
  let score0 : ℚ :=
    if certainty = "high" then 92/100
    else if certainty = "medium" then 78/100
    else if certainty = "low" then 60/100
    else 50/100
  let score1 := if hasRealAuthor b.author then score0 + 5/100 else score0
  let titleLength := (jsTrim (jsOrStr b.title "")).length
  let score2 := if titleLength < 3 then score1 - 5/100 else score1
  let score3 := if titleLength > 80 then score2 - 3/100 else score2
  let score4 := if !hasRealAuthor b.author then score3 - 3/100 else score3
  jsRound (min 1 (max 0 score4) * 100) / 100

/-- Modelled from the claim wording of C4 (for comparison only): base score
0.50 when the certainty tag is *absent* or unrecognized, and the +0.05 bonus
granted only when *both* a non-empty title and a real author are present. -/
def specC4Confidence (b : AIBook) : ℚ :=
  let base : ℚ :=
    match b.certainty with
    | none => 50/100
    | some c =>
      let t := jsToLower (jsTrim c)
      if t = "high" then 92/100
      else if t = "medium" then 78/100
      else if t = "low" then 60/100
      else 50/100
  let titleTrim := jsTrim (jsOrStr b.title "")
  let realAuthor := hasRealAuthor b.author
  jsRound (min 1 (max 0 (base +
    (if decide (titleTrim ≠ "") && realAuthor then 5/100 else 0) +
    (if titleTrim.length < 3 then -(5/100) else 0) +
    (if titleTrim.length > 80 then -(3/100) else 0) +
    (if !realAuthor then -(3/100) else 0))) * 100) / 100

/-- The amended-claim formula for the scorer: base by normalized tag with an
absent or empty tag defaulting to "medium" (0.78), +0.05 whenever a real
(non-"Unknown") author is present (no condition on the title), −0.05 for a
trimmed title shorter than 3 characters, −0.03 for one longer than 80, −0.03
when no real author is present, clamped to `[0, 1]` and rounded to 2 decimal
places. -/
def amendedC4Confidence (b : AIBook) : ℚ :=
  let t := jsToLower (jsTrim (jsOrStr b.certainty "medium"))
  let base : ℚ :=
    if t = "high" then 92/100
    else if t = "medium" then 78/100
    else if t = "low" then 60/100
    else 50/100
  let realAuthor := hasRealAuthor b.author
  let titleLen := (jsTrim (jsOrStr b.title "")).length
  jsRound (min 1 (max 0 (base +
    (if realAuthor then 5/100 else 0) +
    (if titleLen < 3 then -(5/100) else 0) +
    (if titleLen > 80 then -(3/100) else 0) +
    (if !realAuthor then -(3/100) else 0))) * 100) / 100

/-! ## Concrete inputs used by the witnesses -/

/-- A book with both fields read but no certainty tag supplied by the model. -/
def hobbitBook : AIBook := ⟨some "The Hobbit", some "J. R. R. Tolkien", none⟩

/-- First book of the failure-isolation witness (its cache lookup throws). -/
def bookA2 : RecBook := ⟨"Snow Crash", some "Neal Stephenson", 1⟩

/-- Second book of the failure-isolation witness (processed normally). -/
def bookB2 : RecBook := ⟨"Hyperion", some "Dan Simmons", 1⟩

/-- Catalog metadata returned for the second witness book. -/
def hyperionMeta : Metadata :=
  ⟨some "9780553283686", some "https://books.example/hyperion.jpg",
   some "Space opera.", ["Science Fiction"]⟩

/-- Fault oracle of the witness: the lookup for book 0 throws. -/
def lt2 : Nat → Bool := fun i => decide (i = 0)

/-- Catalog oracle of the witness: every call finds `hyperionMeta`. -/
def oc2 : Nat → CatalogOutcome := fun _ => .found hyperionMeta

/-- Fresh-identifier oracle of the witness. -/
def ids2 : Nat → String := fun _ => "fresh"

/-- The spec's plain-prose model reply. -/
def proseInput : String := "I could not identify any books."

/-- A reply that is a JSON object exposing an array-valued field, with a
second array field making the bracket-substring strategy fail:
`{"recommendations": [{"title": "Dune"}], "x": [1, 2]}`. -/
def c3Input : String :=
  "\x7b\"recommendations\": [\x7b\"title\": \"Dune\"\x7d], \"x\": [1, 2]\x7d"

/-- The spec's fenced-markdown model reply. -/
def fencedInput : String :=
  "```json\n[\x7b\"title\": \"1984\", \"author\": \"George Orwell\", \"certainty\": \"high\"\x7d]\n```"

/-- A clean JSON-array recommendation reply. -/
def recArrayInput : String :=
  "[\x7b\"title\": \"Dune\", \"author\": \"Frank Herbert\", \"reason\": \"Epic.\"\x7d]"

/-- Nine valid recommendation records (more than either claimed cap). -/
def nineRecs : List Json :=
  [Json.obj [("title", Json.str "Book 1")], Json.obj [("title", Json.str "Book 2")],
   Json.obj [("title", Json.str "Book 3")], Json.obj [("title", Json.str "Book 4")],
   Json.obj [("title", Json.str "Book 5")], Json.obj [("title", Json.str "Book 6")],
   Json.obj [("title", Json.str "Book 7")], Json.obj [("title", Json.str "Book 8")],
   Json.obj [("title", Json.str "Book 9")]]

/-- The cleaned form of the first eight of `nineRecs` (the empty reasons
come back as the bare ellipsis). -/
def eightCleaned : List CleanRec :=
  [⟨"Book 1", "Unknown", "..."⟩, ⟨"Book 2", "Unknown", "..."⟩,
   ⟨"Book 3", "Unknown", "..."⟩, ⟨"Book 4", "Unknown", "..."⟩,
   ⟨"Book 5", "Unknown", "..."⟩, ⟨"Book 6", "Unknown", "..."⟩,
   ⟨"Book 7", "Unknown", "..."⟩, ⟨"Book 8", "Unknown", "..."⟩]

/-- A catalog result offering both identifier formats (the legacy 10-digit
one listed first), both preview sizes, and an insecure thumbnail URL. -/
def gbVolume : VolumeInfo :=
  ⟨some [⟨"ISBN_10", "0441172719"⟩, ⟨"ISBN_13", "9780441172719"⟩],
   some ⟨some "http://books.google.com/dune.jpg", some "http://small.example/dune.jpg"⟩,
   some "Desert planet epic.", some ["Science Fiction"]⟩

/-- A catalog result with no large `thumbnail` at all, only an insecure
`smallThumbnail` URL — the fallback source of the cover. -/
def gbVolumeSmall : VolumeInfo :=
  ⟨none, some ⟨none, some "http://small.example/only.jpg"⟩, none, none⟩

/-- Metadata of the spec example upsert for "the great gatsby". -/
def gatsbyMeta : Metadata :=
  ⟨some "9780743273565", some "https://books.example/gatsby.jpg",
   some "A novel of the Jazz Age.", ["Fiction"]⟩

/-- Empty first-write metadata (a definitive "nothing found" record). -/
def emptyMeta : Metadata := ⟨none, none, none, []⟩

/-- A pre-existing cache row used by the frame-condition witness. -/
def duneRow : CacheRow :=
  ⟨"id-orig", "Dune", "Frank Herbert", "dune", "frank herbert",
   some "9780441172719", none, none, ["Science Fiction"]⟩

/-- Replacement metadata used by the frame-condition witness. -/
def duneMeta : Metadata :=
  ⟨some "9780441013593", some "https://books.example/dune.jpg",
   some "Desert planet epic.", ["Science Fiction", "Classics"]⟩

/-- An unsaved recommendation row created 25 hours before the witness "now". -/
def recRowUnsaved25 : RecRow := ⟨"r1", "d1", "s1", "data1", false, 975⟩

/-- A saved recommendation row created 999 hours before the witness "now". -/
def recRowSaved999 : RecRow := ⟨"r2", "d1", "s2", "data2", true, 1⟩

/-! ## Lemmas about the generic upsert -/

theorem updFirst_filter_pos (p : α → Bool) (f : α → α)
    (hf : ∀ x, p (f x) = p x) :
    ∀ l : List α, (updFirst p f l).filter p =
      match l.filter p with
      | [] => []
      | x :: xs => f x :: xs := by
  intro l
  induction l with
  | nil => simp [updFirst]
  | cons x xs ih =>
    by_cases hx : p x
    · simp [updFirst, hx, List.filter_cons, hf]
    · simp [updFirst, hx, List.filter_cons, ih]

theorem updFirst_filter_neg (p q : α → Bool) (f : α → α)
    (hf : ∀ x, q (f x) = q x) (hpq : ∀ x, p x = true → q x = false) :
    ∀ l : List α, (updFirst p f l).filter q = l.filter q := by
  intro l
  induction l with
  | nil => simp [updFirst]
  | cons x xs ih =>
    by_cases hx : p x
    · simp [updFirst, hx, List.filter_cons, hf, hpq x hx]
    · simp [updFirst, hx, List.filter_cons, ih]

/-- If no element satisfies `p`, the conditional map is the identity. -/
theorem map_ite_eq_self (p : α → Bool) (f : α → α) :
    ∀ l : List α, l.filter p = [] →
      l.map (fun x => if p x then f x else x) = l := by
  intro l
  induction l with
  | nil => intro _; rfl
  | cons x xs ih =>
    intro h
    rw [List.filter_cons] at h
    by_cases hx : p x
    · rw [if_pos hx] at h
      exact absurd h (List.cons_ne_nil x _)
    · rw [if_neg hx] at h
      simp [hx, ih h]

/-- With at most one match, updating the first match is the same as the
conditional map over the whole list. -/
theorem updFirst_eq_map (p : α → Bool) (f : α → α) :
    ∀ l : List α, (l.filter p).length ≤ 1 →
      updFirst p f l = l.map (fun x => if p x then f x else x) := by
  intro l
  induction l with
  | nil => intro _; rfl
  | cons x xs ih =>
    intro h
    rw [List.filter_cons] at h
    by_cases hx : p x
    · rw [if_pos hx] at h
      have hxs : xs.filter p = [] := by
        rcases hf : xs.filter p with _ | ⟨y, ys⟩
        · rfl
        · rw [hf] at h
          simp at h
      simp [updFirst, hx, map_ite_eq_self p f xs hxs]
    · rw [if_neg hx] at h
      simp [updFirst, hx, ih h]

/-- `find?` is the head of `filter`. -/
theorem find?_eq_head_filter (p : α → Bool) :
    ∀ l : List α, l.find? p = (l.filter p).head? := by
  intro l
  induction l with
  | nil => rfl
  | cons x xs ih =>
    by_cases hx : p x
    · rw [List.find?_cons_of_pos _ hx, List.filter_cons, if_pos hx]
      rfl
    · rw [List.find?_cons_of_neg _ (by simpa using hx), List.filter_cons,
        if_neg (by simpa using hx), ih]

/-- If no row matches the conflict predicate, an upsert inserts exactly the
fresh row (and it is the only row matching the predicate afterwards). -/
theorem upsertFirst_filter_self_nil (p : α → Bool) (f : α → α) (new : α)
    (hnew : p new = true) (l : List α) (hnil : l.filter p = []) :
    (upsertFirst p f new l).filter p = [new] := by
  unfold upsertFirst
  have h : l.any p = false := by
    rw [Bool.eq_false_iff]
    intro hany
    rcases List.any_eq_true.mp hany with ⟨x, hx, hpx⟩
    have : x ∈ l.filter p := List.mem_filter.mpr ⟨hx, hpx⟩
    rw [hnil] at this
    exact List.not_mem_nil x this
  rw [if_neg (by simp [h]), List.filter_append, hnil]
  simp [List.filter_cons, hnew]

/-- If a row already matches the conflict predicate, an upsert updates the
first such row in place and touches nothing else matching the predicate. -/
theorem upsertFirst_filter_self_cons (p : α → Bool) (f : α → α) (new : α)
    (hf : ∀ x, p (f x) = p x) (l : List α) (x : α) (xs : List α)
    (hcons : l.filter p = x :: xs) :
    (upsertFirst p f new l).filter p = f x :: xs := by
  unfold upsertFirst
  have h : l.any p = true := by
    have : x ∈ l.filter p := by rw [hcons]; exact List.mem_cons_self x xs
    rcases List.mem_filter.mp this with ⟨hx, hpx⟩
    exact List.any_eq_true.mpr ⟨x, hx, hpx⟩
  rw [if_pos h, updFirst_filter_pos p f hf, hcons]

/-- An upsert does not disturb the rows selected by a disjoint predicate
(a different key). -/
theorem upsertFirst_filter_other (p q : α → Bool) (f : α → α) (new : α)
    (hf : ∀ x, q (f x) = q x) (hpq : ∀ x, p x = true → q x = false)
    (hnewq : q new = false) (l : List α) :
    (upsertFirst p f new l).filter q = l.filter q := by
  unfold upsertFirst
  by_cases h : l.any p
  · rw [if_pos h, updFirst_filter_neg p q f hf hpq]
  · rw [if_neg h, List.filter_append]
    simp [List.filter_cons, hnewq]

/-- With at most one match, the in-place branch of an upsert is the
conditional map, and the insert branch appends the fresh row. -/
theorem upsertFirst_cases (p : α → Bool) (f : α → α) (new : α) (l : List α)
    (hUnique : (l.filter p).length ≤ 1) :
    (l.any p = true → upsertFirst p f new l = l.map (fun x => if p x then f x else x))
    ∧ (l.any p = false → upsertFirst p f new l = l ++ [new]) := by
  constructor
  · intro h
    unfold upsertFirst
    rw [if_pos h, updFirst_eq_map p f l hUnique]
  · intro h
    unfold upsertFirst
    rw [if_neg (by simp [h])]

/-! ## Cache-specific corollaries -/

/-- `updMeta` leaves the key columns unchanged, hence preserves key matches. -/
theorem keyMatches_updMeta (k : String × String) (m : Metadata) (r : CacheRow) :
    keyMatches k (updMeta m r) = keyMatches k r := rfl

/-- The freshly inserted row carries exactly the key it was stored under. -/
theorem rowKey_mkCacheRow (fresh title : String) (author : Option String) (m : Metadata) :
    rowKey (mkCacheRow fresh title author m) = cacheKey title author := rfl

/-- Inserting under a key absent from the cache leaves exactly the fresh row
under that key. -/
theorem storeInCache_filter_self_nil (fresh title : String) (author : Option String)
    (m : Metadata) (cache : List CacheRow)
    (hnil : cache.filter (keyMatches (cacheKey title author)) = []) :
    (storeInCache fresh title author m cache).filter
        (keyMatches (cacheKey title author)) = [mkCacheRow fresh title author m] := by
  unfold storeInCache
  have hnew : keyMatches (cacheKey title author) (mkCacheRow fresh title author m) = true := by
    simp [keyMatches, rowKey_mkCacheRow]
  exact upsertFirst_filter_self_nil _ _ _ hnew cache hnil

/-- Upserting under a key present in the cache overwrites the metadata of the
row the unique index points at. -/
theorem storeInCache_filter_self_cons (fresh title : String) (author : Option String)
    (m : Metadata) (cache : List CacheRow) (x : CacheRow) (xs : List CacheRow)
    (hcons : cache.filter (keyMatches (cacheKey title author)) = x :: xs) :
    (storeInCache fresh title author m cache).filter
        (keyMatches (cacheKey title author)) = updMeta m x :: xs := by
  unfold storeInCache
  exact upsertFirst_filter_self_cons _ _ _ (fun x => keyMatches_updMeta _ m x) cache x xs hcons

/-- `storeInCache` does not disturb rows under any other key. -/
theorem storeInCache_filter_other (fresh title : String) (author : Option String)
    (m : Metadata) (cache : List CacheRow) (k : String × String)
    (hk : k ≠ cacheKey title author) :
    (storeInCache fresh title author m cache).filter (keyMatches k) =
      cache.filter (keyMatches k) := by
  unfold storeInCache
  refine upsertFirst_filter_other _ _ _ _ (fun x => keyMatches_updMeta _ m x) ?_ ?_ cache
  · intro x hx0
    have hx : rowKey x = cacheKey title author := by
      simpa [keyMatches] using hx0
    simp only [keyMatches, hx, decide_eq_false_iff_not]
    exact fun hkk => hk hkk.symm
  · simp only [keyMatches, rowKey_mkCacheRow, decide_eq_false_iff_not]
    exact fun hkk => hk hkk.symm

/-- `checkCache` is determined by the filtered rows of the looked-up key. -/
theorem checkCache_eq (cache : List CacheRow) (title : String) (author : Option String) :
    checkCache cache title author =
      ((cache.filter (keyMatches (cacheKey title author))).head?).map
        (fun r => ⟨r.isbn, r.cover_url, r.description, r.categories⟩) := by
  unfold checkCache
  rw [find?_eq_head_filter]

/-- The two filtered partitions of a list cover it. -/
theorem length_filter_pos_add_neg (p : α → Bool) :
    ∀ l : List α, (l.filter p).length + (l.filter (fun x => !p x)).length = l.length := by
  intro l
  induction l with
  | nil => rfl
  | cons x xs ih =>
    by_cases hx : p x <;> simp [List.filter_cons, hx] <;> omega

/-! ## Claim C1 — cache key normalization, idempotent upsert, last write wins -/

/-- C1: any two (title, author) pairs that normalize (trim + lowercase, absent
author defaulting to `""`) to the same cache key address the same cache entry:
upserting twice leaves exactly one stored row for the key, whose metadata
columns carry the second write (with the JavaScript `|| null` empty-string
coercion), and a lookup whose arguments normalize to that key returns this
entry as a hit.  The `hUnique` hypothesis is the unique index
`(title_lower, author_lower)` of the `book_cache` schema. -/
theorem C1_cache_normalized_key_last_write_wins
    (cache : List CacheRow) (tA tB tC : String) (aA aB aC : Option String)
    (m1 m2 : Metadata) (idA idB : String)
    (hUnique : (cache.filter (keyMatches (cacheKey tA aA))).length ≤ 1)
    (hAB : cacheKey tB aB = cacheKey tA aA)
    (hC : cacheKey tC aC = cacheKey tA aA) :
    ((storeInCache idB tB aB m2 (storeInCache idA tA aA m1 cache)).filter
        (keyMatches (cacheKey tA aA))).length = 1
    ∧ checkCache (storeInCache idB tB aB m2 (storeInCache idA tA aA m1 cache)) tC aC =
        some ⟨jsStrOrNull m2.isbn, jsStrOrNull m2.cover_url,
              jsStrOrNull m2.description, m2.categories⟩ := by
  have hsingle : ∃ y, (storeInCache idA tA aA m1 cache).filter
      (keyMatches (cacheKey tA aA)) = [y] := by
    rcases hfe : cache.filter (keyMatches (cacheKey tA aA)) with _ | ⟨x, xs⟩
    · exact ⟨_, storeInCache_filter_self_nil idA tA aA m1 cache hfe⟩
    · have hxs : xs = [] := by
        rw [hfe] at hUnique
        simpa using hUnique
      subst hxs
      exact ⟨_, storeInCache_filter_self_cons idA tA aA m1 cache x [] hfe⟩
  rcases hsingle with ⟨y, hy⟩
  have hy2 : (storeInCache idA tA aA m1 cache).filter
      (keyMatches (cacheKey tB aB)) = [y] := by
    rw [hAB]
    exact hy
  have h2 := storeInCache_filter_self_cons idB tB aB m2
      (storeInCache idA tA aA m1 cache) y [] hy2
  rw [hAB] at h2
  constructor
  · rw [h2]
    rfl
  · rw [checkCache_eq, hC, h2]
    rfl

/-- Witness for C1: the spec's Gatsby example.  The two upserts and the lookup
differ only in letter case and surrounding whitespace; after both writes there
is exactly one row for the key and the lookup hits the second write. -/
theorem C1_cache_normalized_key_last_write_wins_witness :
    cacheKey " The Great GATSBY " (some "F. Scott FITZGERALD ") =
        cacheKey "the great gatsby" (some "f. scott fitzgerald")
    ∧ ((storeInCache "id-2" " The Great GATSBY " (some "F. Scott FITZGERALD ") gatsbyMeta
          (storeInCache "id-1" "the great gatsby" (some "f. scott fitzgerald") emptyMeta
            [])).filter
        (keyMatches (cacheKey "the great gatsby" (some "f. scott fitzgerald")))).length = 1
    ∧ checkCache
        (storeInCache "id-2" " The Great GATSBY " (some "F. Scott FITZGERALD ") gatsbyMeta
          (storeInCache "id-1" "the great gatsby" (some "f. scott fitzgerald") emptyMeta []))
        "The Great Gatsby" (some "F. Scott Fitzgerald") =
        some ⟨jsStrOrNull gatsbyMeta.isbn, jsStrOrNull gatsbyMeta.cover_url,
              jsStrOrNull gatsbyMeta.description, gatsbyMeta.categories⟩ := by
  refine ⟨by decide, ?_⟩
  exact C1_cache_normalized_key_last_write_wins [] "the great gatsby"
    " The Great GATSBY " "The Great Gatsby" (some "f. scott fitzgerald")
    (some "F. Scott FITZGERALD ") (some "F. Scott Fitzgerald") emptyMeta gatsbyMeta
    "id-1" "id-2" (by decide) (by decide) (by decide)

/-! ## Claim C9 — upsert on an existing key overwrites only the metadata -/

/-- C9: when the key already exists, `storeInCache` maps the matching row
through `updMeta` (which by the accompanying conjunct changes none of
`cache_id`, `title`, `author`, `title_lower`, `author_lower`) and leaves every
other row untouched; when the key is absent it appends a new row carrying the
fresh identifier. -/
theorem C9_upsert_overwrites_only_metadata
    (cache : List CacheRow) (fresh title : String) (author : Option String) (m : Metadata)
    (hUnique : (cache.filter (keyMatches (cacheKey title author))).length ≤ 1) :
    (cache.any (keyMatches (cacheKey title author)) = true →
      storeInCache fresh title author m cache =
        cache.map (fun r => if keyMatches (cacheKey title author) r then updMeta m r else r))
    ∧ (cache.any (keyMatches (cacheKey title author)) = false →
      storeInCache fresh title author m cache = cache ++ [mkCacheRow fresh title author m])
    ∧ (∀ r, (updMeta m r).cache_id = r.cache_id ∧ (updMeta m r).title = r.title ∧
        (updMeta m r).author = r.author ∧ (updMeta m r).title_lower = r.title_lower ∧
        (updMeta m r).author_lower = r.author_lower) := by
  have h := upsertFirst_cases (keyMatches (cacheKey title author)) (updMeta m)
    (mkCacheRow fresh title author m) cache hUnique
  exact ⟨h.1, h.2, fun r => ⟨rfl, rfl, rfl, rfl, rfl⟩⟩

/-- Witness for C9: upserting fresh metadata for a cached book updates the row
in place (the row keeps its original `cache_id` "id-orig" and display casing). -/
theorem C9_upsert_overwrites_only_metadata_witness :
    storeInCache "id-new" "DUNE " (some "Frank Herbert") duneMeta [duneRow] =
      [updMeta duneMeta duneRow]
    ∧ (updMeta duneMeta duneRow).cache_id = "id-orig"
    ∧ (updMeta duneMeta duneRow).title = "Dune" := by
  refine ⟨?_, rfl, rfl⟩
  have h := (C9_upsert_overwrites_only_metadata [duneRow] "id-new" "DUNE "
    (some "Frank Herbert") duneMeta (by decide)).1 (by decide)
  rw [h]
  decide

/-! ## Claim C7 — one recommendation row per scan, last write wins -/

/-- C7: storing a recommendation set twice for the same `scan_id` (in either
order of payloads — the statement covers arbitrary payloads `p1` then `p2`)
leaves exactly one row for that scan, and every row stored under the scan
carries the second payload.  `hUnique` is the uniqueness constraint on
`scan_id`. -/
theorem C7_store_unique_scan_last_write_wins
    (tbl : List RecRow) (scan fresh1 fresh2 dev1 dev2 p1 p2 : String) (t1 t2 : Int)
    (hUnique : (tbl.filter (scanMatches scan)).length ≤ 1) :
    ((storeRecommendation fresh2 dev2 scan p2 t2
        (storeRecommendation fresh1 dev1 scan p1 t1 tbl)).filter
      (scanMatches scan)).length = 1
    ∧ ∀ r ∈ (storeRecommendation fresh2 dev2 scan p2 t2
        (storeRecommendation fresh1 dev1 scan p1 t1 tbl)).filter (scanMatches scan),
        r.book_data = p2 := by
  have hsingle : ∃ y, (storeRecommendation fresh1 dev1 scan p1 t1 tbl).filter
      (scanMatches scan) = [y] := by
    rcases hfe : tbl.filter (scanMatches scan) with _ | ⟨x, xs⟩
    · refine ⟨_, upsertFirst_filter_self_nil _ _ _ ?_ tbl hfe⟩
      simp [scanMatches, mkRecRow]
    · have hxs : xs = [] := by
        rw [hfe] at hUnique
        simpa using hUnique
      subst hxs
      exact ⟨setBookData p1 x, upsertFirst_filter_self_cons (scanMatches scan)
        (setBookData p1) (mkRecRow fresh1 dev1 scan p1 t1) (fun r => rfl) tbl x [] hfe⟩
  rcases hsingle with ⟨y, hy⟩
  have h2 : (storeRecommendation fresh2 dev2 scan p2 t2
      (storeRecommendation fresh1 dev1 scan p1 t1 tbl)).filter (scanMatches scan) =
      [setBookData p2 y] :=
    upsertFirst_filter_self_cons (scanMatches scan) (setBookData p2)
      (mkRecRow fresh2 dev2 scan p2 t2) (fun r => rfl)
      (storeRecommendation fresh1 dev1 scan p1 t1 tbl) y [] hy
  constructor
  · rw [h2]
    rfl
  · intro r hr
    rw [h2] at hr
    rcases List.mem_singleton.mp hr with rfl
    rfl

/-- Witness for C7: two stores for `scan-1` with different payloads leave one
row containing the second payload (and the original row identity). -/
theorem C7_store_unique_scan_last_write_wins_witness :
    ((storeRecommendation "rec2" "dev" "scan-1" "payload-2" 5
        (storeRecommendation "rec1" "dev" "scan-1" "payload-1" 3 [])).filter
      (scanMatches "scan-1")).length = 1
    ∧ (storeRecommendation "rec2" "dev" "scan-1" "payload-2" 5
        (storeRecommendation "rec1" "dev" "scan-1" "payload-1" 3 [])).filter
      (scanMatches "scan-1") = [⟨"rec1", "dev", "scan-1", "payload-2", false, 3⟩] :=
  ⟨(C7_store_unique_scan_last_write_wins [] "scan-1" "rec1" "rec2" "dev" "dev"
      "payload-1" "payload-2" 3 5 (by decide)).1,
   by decide⟩

/-! ## Claim C8 — retention cleanup deletes exactly the old unsaved rows -/

/-- C8: `cleanupOldRecommendations` keeps every saved row regardless of age,
keeps an unsaved row exactly when it is within the 24-hour window, deletes
every unsaved row older than the window, and reports the number of deleted
rows (deleted + kept = total). -/
theorem C8_cleanup_deletes_only_old_unsaved (now : Int) (tbl : List RecRow) :
    (∀ r ∈ tbl, r.saved = true → r ∈ (cleanupOldRecommendations now tbl).1)
    ∧ (∀ r ∈ (cleanupOldRecommendations now tbl).1,
        r ∈ tbl ∧ (r.saved = true ∨ now - 24 ≤ r.created_at))
    ∧ (∀ r ∈ tbl, r.saved = false → r.created_at < now - 24 →
        r ∉ (cleanupOldRecommendations now tbl).1)
    ∧ (cleanupOldRecommendations now tbl).2 +
        ((cleanupOldRecommendations now tbl).1).length = tbl.length := by
  refine ⟨?_, ?_, ?_, ?_⟩
  · intro r hr hs
    refine List.mem_filter.mpr ⟨hr, ?_⟩
    simp [isOldUnsaved, hs]
  · intro r hr
    rcases List.mem_filter.mp hr with ⟨hmem, hcond⟩
    refine ⟨hmem, ?_⟩
    by_cases hs : r.saved
    · exact Or.inl hs
    · refine Or.inr ?_
      simp [isOldUnsaved, hs] at hcond
      omega
  · intro r hr hs hlt hmem
    rcases List.mem_filter.mp hmem with ⟨_, hcond⟩
    simp [isOldUnsaved, hs, hlt] at hcond
  · exact length_filter_pos_add_neg (isOldUnsaved now) tbl

/-- Witness for C8: with `now = 1000` (hours), the unsaved row created 25 hours
ago is deleted, the saved row created 999 hours ago is preserved, and the
reported count is 1. -/
theorem C8_cleanup_deletes_only_old_unsaved_witness :
    recRowSaved999 ∈ (cleanupOldRecommendations 1000 [recRowUnsaved25, recRowSaved999]).1
    ∧ recRowUnsaved25 ∉ (cleanupOldRecommendations 1000 [recRowUnsaved25, recRowSaved999]).1
    ∧ (cleanupOldRecommendations 1000 [recRowUnsaved25, recRowSaved999]).2 = 1 :=
  ⟨(C8_cleanup_deletes_only_old_unsaved 1000 [recRowUnsaved25, recRowSaved999]).1
      recRowSaved999 (by decide) rfl,
   (C8_cleanup_deletes_only_old_unsaved 1000 [recRowUnsaved25, recRowSaved999]).2.2.1
      recRowUnsaved25 (by decide) rfl (by decide),
   by decide⟩

/-! ## Claim C4 — the confidence scorer -/

/-- Argument congruence under the final clamp-and-round. -/
theorem roundClamp_congr {x y : ℚ} (h : x = y) :
    jsRound (min 1 (max 0 x) * 100) / 100 = jsRound (min 1 (max 0 y) * 100) / 100 := by
  rw [h]

/-- Evaluation rule for `jsRound` at a known integer result. -/
theorem jsRound_eq (x : ℚ) (z : ℤ) (h1 : (z : ℚ) ≤ x + 1/2) (h2 : x + 1/2 < z + 1) :
    jsRound x = (z : ℚ) := by
  unfold jsRound
  rw [Int.floor_eq_iff.mpr ⟨h1, h2⟩]

/-- Counterexample to C4 as stated: for a record whose certainty tag is
*absent*, the code normalizes `book.certainty || "medium"` and scores from the
"medium" base 0.78 (giving 0.83 here), whereas the claim's formula assigns
base 0.50 to an absent tag (giving 0.55). -/
theorem C4_absent_certainty_counterexample :
    computeConfidence hobbitBook = 83/100
    ∧ specC4Confidence hobbitBook = 55/100
    ∧ computeConfidence hobbitBook ≠ specC4Confidence hobbitBook := by
  have hc : jsToLower (jsTrim (jsOrStr none "medium")) = "medium" := by decide
  have ha : hasRealAuthor (some "J. R. R. Tolkien") = true := by decide
  have ht : (jsTrim (jsOrStr (some "The Hobbit") "")).length = 10 := by decide
  have htt : jsTrim (jsOrStr (some "The Hobbit") "") = "The Hobbit" := by decide
  have h1 : computeConfidence hobbitBook = 83/100 := by
    simp only [computeConfidence, hobbitBook, hc, ha, ht]
    norm_num
    rw [if_neg (show ¬("medium" = "high") from by decide)]
    rw [sup_eq_right.mpr (by norm_num : (0 : ℚ) ≤ 39/50 + 1/20),
      inf_eq_right.mpr (by norm_num : (39/50 + 1/20 : ℚ) ≤ 1)]
    rw [jsRound_eq ((39/50 + 1/20) * 100) 83 (by norm_num) (by norm_num)]
    norm_num
  have h2 : specC4Confidence hobbitBook = 55/100 := by
    simp only [specC4Confidence, hobbitBook, ha, ht, htt]
    norm_num
    rw [if_neg (show ¬("The Hobbit" = "") from by decide)]
    rw [show ("The Hobbit" : String).length = 10 from by decide]
    norm_num
    rw [jsRound_eq 55 55 (by norm_num) (by norm_num)]
    norm_num
  refine ⟨h1, h2, ?_⟩
  rw [h1, h2]
  norm_num

/-- C4 (amended): the scorer equals the amended formula — absent or empty
certainty defaults to the "medium" base 0.78 (0.50 is only for a *present*
unrecognized tag), and the +0.05 bonus depends on the author alone. -/
theorem C4_confidence_formula (b : AIBook) :
    computeConfidence b = amendedC4Confidence b := by
  unfold computeConfidence amendedC4Confidence
  rcases hA : hasRealAuthor b.author <;>
    by_cases h3 : (jsTrim (jsOrStr b.title "")).length < 3 <;>
      by_cases h80 : (jsTrim (jsOrStr b.title "")).length > 80 <;>
        simp only [hA, h3, h80, Bool.not_true, Bool.not_false, if_true, if_false,
          Bool.false_eq_true, Bool.true_eq_false, ite_true, ite_false, if_pos, if_neg] <;>
        simp [h3, h80] <;>
        exact roundClamp_congr (by ring)

/-! ## Claims C2 and C10 — the enrichment orchestrator -/

/-- Storing under one key does not change what a lookup under a different key
sees. -/
theorem checkCache_store_other (fresh t : String) (a : Option String) (m : Metadata)
    (cache : List CacheRow) (t2 : String) (a2 : Option String)
    (h : cacheKey t2 a2 ≠ cacheKey t a) :
    checkCache (storeInCache fresh t a m cache) t2 a2 = checkCache cache t2 a2 := by
  rw [checkCache_eq, checkCache_eq, storeInCache_filter_other fresh t a m cache _ h]

/-- One enrichment step always carries its input book through unchanged. -/
theorem enrichOne_base (l : Bool) (o : CatalogOutcome) (f : String)
    (c : List CacheRow) (b : RecBook) :
    ((enrichOne l o f c b).1).book = b := by
  unfold enrichOne
  cases l
  · rcases hcv : checkCache c b.title b.author with _ | hit <;>
      rcases o with m | _ | _ <;> simp [hcv, fallbackBook]
  · rfl

/-- The output record of one step depends on the cache only through the
lookup of the book's own key. -/
theorem enrichOne_congr (l : Bool) (o : CatalogOutcome) (f : String)
    (c1 c2 : List CacheRow) (b : RecBook)
    (h : checkCache c1 b.title b.author = checkCache c2 b.title b.author) :
    (enrichOne l o f c1 b).1 = (enrichOne l o f c2 b).1 := by
  unfold enrichOne
  cases l
  · rw [h]
    rcases hcv : checkCache c2 b.title b.author with _ | hit <;>
      rcases o with m | _ | _ <;> simp [hcv]
  · rfl

/-- One enrichment step never disturbs cached entries under other keys. -/
theorem enrichOne_cache_other (l : Bool) (o : CatalogOutcome) (f : String)
    (c : List CacheRow) (b : RecBook) (t : String) (a : Option String)
    (h : cacheKey t a ≠ cacheKey b.title b.author) :
    checkCache ((enrichOne l o f c b).2.1) t a = checkCache c t a := by
  unfold enrichOne
  cases l
  · rcases hcv : checkCache c b.title b.author with _ | hit <;>
      rcases o with m | _ | _ <;>
      simp [hcv, checkCache_store_other _ _ _ _ _ _ _ h]
  · rfl

/-- A lookup throw produces exactly the fallback record. -/
theorem enrichOne_lookup_thrown (o : CatalogOutcome) (f : String)
    (c : List CacheRow) (b : RecBook) :
    (enrichOne true o f c b).1 = fallbackBook b := rfl

/-- A catalog-call exception on a cache miss produces exactly the fallback
record (on a cache hit no catalog call happens). -/
theorem enrichOne_catalog_thrown (f : String) (c : List CacheRow) (b : RecBook)
    (hmiss : checkCache c b.title b.author = none) :
    (enrichOne false CatalogOutcome.thrown f c b).1 = fallbackBook b := by
  unfold enrichOne
  simp [hmiss]

/-- The loop yields exactly one output per input, in order, each carrying its
input book. -/
theorem enrichGo_map_base (lt : Nat → Bool) (oc : Nat → CatalogOutcome)
    (ids : Nat → String) :
    ∀ (books : List RecBook) (i : Nat) (cache : List CacheRow),
      ((enrichGo lt oc ids i cache books).1).map (·.book) = books := by
  intro books
  induction books with
  | nil => intro i cache; rfl
  | cons hd tl ih =>
    intro i cache
    simp only [enrichGo, List.map_cons]
    rw [enrichOne_base, ih]

/-- Slot `j` of the loop output is the single-step function applied to the
`j`-th book with the cache state evolved over the first `j` books. -/
theorem enrichGo_get (lt : Nat → Bool) (oc : Nat → CatalogOutcome) (ids : Nat → String) :
    ∀ (books : List RecBook) (i : Nat) (cache : List CacheRow) (j : Nat) (b : RecBook),
      books[j]? = some b →
      ((enrichGo lt oc ids i cache books).1)[j]? =
        some ((enrichOne (lt (i + j)) (oc (i + j)) (ids (i + j))
          ((enrichGo lt oc ids i cache (books.take j)).2.1) b).1) := by
  intro books
  induction books with
  | nil =>
    intro i cache j b hb
    simp at hb
  | cons hd tl ih =>
    intro i cache j b hb
    cases j with
    | zero =>
      simp only [List.getElem?_cons_zero, Option.some.injEq] at hb
      subst hb
      simp [enrichGo]
    | succ j =>
      simp only [List.getElem?_cons_succ] at hb
      have hrec := ih (i + 1) (enrichOne (lt i) (oc i) (ids i) cache hd).2.1 j b hb
      simp only [enrichGo, List.getElem?_cons_succ, List.take_succ_cons]
      rw [hrec]
      have hidx : i + 1 + j = i + (j + 1) := by omega
      rw [hidx]

/-- The evolved cache answers lookups for a key different from every
processed book's key exactly as the initial cache does. -/
theorem enrichGo_lookup_preserved (lt : Nat → Bool) (oc : Nat → CatalogOutcome)
    (ids : Nat → String) :
    ∀ (books : List RecBook) (i : Nat) (cache : List CacheRow) (t : String)
      (a : Option String),
      (∀ b ∈ books, cacheKey t a ≠ cacheKey b.title b.author) →
      checkCache ((enrichGo lt oc ids i cache books).2.1) t a =
        checkCache cache t a := by
  intro books
  induction books with
  | nil => intro i cache t a _; rfl
  | cons hd tl ih =>
    intro i cache t a h
    simp only [enrichGo]
    rw [ih (i + 1) _ t a (fun b hb => h b (List.mem_cons_of_mem hd hb)),
      enrichOne_cache_other _ _ _ _ _ _ _ (h hd (List.mem_cons_self hd tl))]

/-- C10: with no catalog API key configured (a missing or empty environment
variable is falsy), `enrichBooks` maps every input book, in order, to the
record extended with `isbn = null`, `cover_url = null`, `description = null`,
`categories = []`, `enriched = false`, leaves the cache untouched, and
produces no lookup, API-call or write event. -/
theorem C10_missing_key_degrades_without_effects (apiKey : Option String)
    (lt : Nat → Bool) (oc : Nat → CatalogOutcome) (ids : Nat → String)
    (cache : List CacheRow) (books : List RecBook)
    (h : jsStrOrNull apiKey = none) :
    enrichBooks apiKey lt oc ids cache books = (books.map fallbackBook, cache, [])
    ∧ ∀ b : RecBook, fallbackBook b =
        { book := b, isbn := none, cover_url := none, description := none,
          categories := [], enriched := false } := by
  constructor
  · unfold enrichBooks
    rw [if_pos h]
  · intro b
    rfl

/-- Witness for C10: with a `none` API key, two books come back in order with
null metadata and no cache or catalog interaction at all. -/
theorem C10_missing_key_degrades_without_effects_witness :
    enrichBooks none lt2 oc2 ids2 [] [bookA2, bookB2] =
      ([fallbackBook bookA2, fallbackBook bookB2], [], []) :=
  (C10_missing_key_degrades_without_effects none lt2 oc2 ids2 [] [bookA2, bookB2] rfl).1

/-- C2: with an API key configured, the batch result (a) contains exactly one
output per input book, in order, each carrying its input record; (b) a book
whose cache lookup throws comes back as the fallback record; (c) a book whose
catalog call throws on a cache miss comes back as the fallback record; and
(d) when all books have pairwise-distinct normalized keys, every book with no
fault of its own is processed normally — its output equals the single-step
enrichment against the initial cache, independent of the other books'
faults. -/
theorem C2_enrich_isolates_per_item_failures (apiKey : Option String)
    (lt : Nat → Bool) (oc : Nat → CatalogOutcome) (ids : Nat → String)
    (cache : List CacheRow) (books : List RecBook)
    (hkey : jsStrOrNull apiKey ≠ none) :
    (((enrichBooks apiKey lt oc ids cache books).1).map (·.book) = books)
    ∧ (∀ (j : Nat) (b : RecBook), books[j]? = some b → lt j = true →
        ((enrichBooks apiKey lt oc ids cache books).1)[j]? = some (fallbackBook b))
    ∧ (∀ (j : Nat) (b : RecBook), books[j]? = some b → lt j = false →
        oc j = CatalogOutcome.thrown →
        checkCache (enrichCacheBefore lt oc ids cache books j) b.title b.author = none →
        ((enrichBooks apiKey lt oc ids cache books).1)[j]? = some (fallbackBook b))
    ∧ ((books.map (fun b => cacheKey b.title b.author)).Nodup →
        ∀ (j : Nat) (b : RecBook), books[j]? = some b → lt j = false →
        oc j ≠ CatalogOutcome.thrown →
        ((enrichBooks apiKey lt oc ids cache books).1)[j]? =
          some ((enrichOne (lt j) (oc j) (ids j) cache b).1)) := by
  have hif : enrichBooks apiKey lt oc ids cache books = enrichGo lt oc ids 0 cache books := by
    unfold enrichBooks
    rw [if_neg hkey]
  refine ⟨?_, ?_, ?_, ?_⟩
  · rw [hif]
    exact enrichGo_map_base lt oc ids books 0 cache
  · intro j b hb hlt
    rw [hif, enrichGo_get lt oc ids books 0 cache j b hb]
    simp only [Nat.zero_add, hlt]
    rw [enrichOne_lookup_thrown]
  · intro j b hb hlt hoc hmiss
    rw [hif, enrichGo_get lt oc ids books 0 cache j b hb]
    simp only [Nat.zero_add, hlt, hoc]
    have hmiss2 : checkCache ((enrichGo lt oc ids 0 cache (books.take j)).2.1)
        b.title b.author = none := hmiss
    rw [enrichOne_catalog_thrown _ _ _ hmiss2]
  · intro hnd j b hb hlt hoc
    rw [hif, enrichGo_get lt oc ids books 0 cache j b hb]
    simp only [Nat.zero_add]
    have hpres : checkCache ((enrichGo lt oc ids 0 cache (books.take j)).2.1)
        b.title b.author = checkCache cache b.title b.author := by
      apply enrichGo_lookup_preserved
      intro b2 hb2
      rcases List.mem_iff_getElem?.mp hb2 with ⟨j2, hj2⟩
      rw [List.getElem?_take] at hj2
      by_cases hlt2 : j2 < j
      case neg =>
        rw [if_neg hlt2] at hj2
        exact absurd hj2 (by simp)
      rw [if_pos hlt2] at hj2
      intro hkk
      have hmapj : (books.map (fun b => cacheKey b.title b.author))[j]? =
          some (cacheKey b.title b.author) := by
        rw [List.getElem?_map, hb]
        rfl
      have hmapj2 : (books.map (fun b => cacheKey b.title b.author))[j2]? =
          some (cacheKey b2.title b2.author) := by
        rw [List.getElem?_map, hj2]
        rfl
      have heq : (books.map (fun b => cacheKey b.title b.author))[j]? =
          (books.map (fun b => cacheKey b.title b.author))[j2]? := by
        rw [hmapj, hmapj2, hkk]
      have hjlen : j < (books.map (fun b => cacheKey b.title b.author)).length := by
        rw [List.length_map]
        exact (List.getElem?_eq_some.mp hb).1
      have := List.getElem?_inj hjlen hnd heq
      omega
    rw [enrichOne_congr (lt j) (oc j) (ids j) _ cache b hpres]

/-! ## Claim C6 — the catalog client fails closed and extraction policy -/

/-- JavaScript `x || null` keeps a truthy (non-empty) string. -/
theorem jsStrOrNull_some_ne (x : String) (h : x ≠ "") :
    jsStrOrNull (some x) = some x := by
  simp only [jsStrOrNull]
  rw [if_neg h]

/-- JavaScript `x || y || null` keeps a truthy (non-empty) first operand. -/
theorem jsStrOr2_some_ne (x : String) (b : Option String) (h : x ≠ "") :
    jsStrOr2 (some x) b = some x := by
  unfold jsStrOr2
  rw [jsStrOrNull_some_ne x h]

/-- Replacing the first occurrence of a pattern that starts the string swaps
the leading pattern for the replacement. -/
theorem jsReplaceFirst_of_leading (s pat rep : String) (h : leadsWith pat s = true) :
    jsReplaceFirst s pat rep = ⟨rep.data ++ s.data.drop pat.data.length⟩ := by
  have htake : s.data.take pat.data.length = pat.data := by
    have := of_decide_eq_true h
    exact this
  have hpre : pat.data.isPrefixOf s.data = true := by
    rw [List.isPrefixOf_iff_prefix, List.prefix_iff_eq_take]
    exact htake.symm
  unfold jsReplaceFirst splitAtSub splitAtSubGo
  rw [if_pos hpre]
  simp

/-- JavaScript `x || y || null` falls through a falsy first operand. -/
theorem jsStrOr2_first_falsy (a b : Option String) (h : jsStrOrNull a = none) :
    jsStrOr2 a b = jsStrOrNull b := by
  unfold jsStrOr2
  rw [h]

/-- C6: the catalog client converts every HTTP error status, timeout, network
failure, malformed body and zero-result response to the absent value; and on
a result, the first `ISBN_13` identifier (when usable) wins over any offered
`ISBN_10`, the larger `thumbnail` wins over `smallThumbnail`, and *every*
returned cover URL — whichever of the two image links it was selected from —
is stored through the `replace('http://', 'https://')` upgrade, so a
selected URL beginning `http://` always comes back with the `https://`
scheme (conjuncts on the selected URL `u` cover both sources; the
`smallThumbnail` fallback case is also stated explicitly). -/
theorem C6_catalog_fails_closed_and_prefers_rich_fields
    (title : String) (author : Option String) (apiKey : String) :
    (∀ s, fetchFromGoogleBooks title author apiKey (.httpError s) = none)
    ∧ fetchFromGoogleBooks title author apiKey .timeout = none
    ∧ fetchFromGoogleBooks title author apiKey .networkError = none
    ∧ fetchFromGoogleBooks title author apiKey .jsonError = none
    ∧ (∀ d : GBooksData, d.items = none ∨ d.items = some [] ∨ d.totalItems = some 0 →
        fetchFromGoogleBooks title author apiKey (.success d) = none)
    ∧ (∀ (vi : VolumeInfo) (ids : List IndustryId) (e13 e10 : IndustryId),
        vi.industryIdentifiers = some ids →
        ids.find? (fun i => decide (i.idType = "ISBN_13")) = some e13 →
        e13.identifier ≠ "" →
        e10 ∈ ids → e10.idType = "ISBN_10" →
        (extractVolumeMetadata vi).isbn = some e13.identifier)
    ∧ (∀ (vi : VolumeInfo) (il : ImageLinks) (t : String),
        vi.imageLinks = some il → il.thumbnail = some t → t ≠ "" →
        (extractVolumeMetadata vi).cover_url =
          some (jsReplaceFirst t "http://" "https://"))
    ∧ (∀ (vi : VolumeInfo) (il : ImageLinks) (t : String),
        vi.imageLinks = some il → il.thumbnail = some t → t ≠ "" →
        leadsWith "http://" t = true →
        (extractVolumeMetadata vi).cover_url =
          some ("https://" ++ (⟨t.data.drop 7⟩ : String)))
    ∧ (∀ vi : VolumeInfo, vi.imageLinks = none →
        (extractVolumeMetadata vi).cover_url = none)
    ∧ (∀ (vi : VolumeInfo) (il : ImageLinks), vi.imageLinks = some il →
        jsStrOr2 il.thumbnail il.smallThumbnail = none →
        (extractVolumeMetadata vi).cover_url = none)
    ∧ (∀ (vi : VolumeInfo) (il : ImageLinks) (u : String), vi.imageLinks = some il →
        jsStrOr2 il.thumbnail il.smallThumbnail = some u →
        (extractVolumeMetadata vi).cover_url =
          some (jsReplaceFirst u "http://" "https://"))
    ∧ (∀ (vi : VolumeInfo) (il : ImageLinks) (u : String), vi.imageLinks = some il →
        jsStrOr2 il.thumbnail il.smallThumbnail = some u →
        leadsWith "http://" u = true →
        (extractVolumeMetadata vi).cover_url =
          some ("https://" ++ (⟨u.data.drop 7⟩ : String)))
    ∧ (∀ (vi : VolumeInfo) (il : ImageLinks) (t : String), vi.imageLinks = some il →
        jsStrOrNull il.thumbnail = none → il.smallThumbnail = some t → t ≠ "" →
        (extractVolumeMetadata vi).cover_url =
          some (jsReplaceFirst t "http://" "https://")) := by
  refine ⟨fun s => rfl, rfl, rfl, rfl, ?_, ?_, ?_, ?_, ?_, ?_, ?_, ?_, ?_⟩
  · intro d hd
    rcases hd with h | h | h
    · simp [fetchFromGoogleBooks, h]
    · simp [fetchFromGoogleBooks, h]
    · rcases hit : d.items with _ | ⟨_ | ⟨vi, rest⟩⟩ <;>
        simp [fetchFromGoogleBooks, hit, h]
  · intro vi ids e13 e10 hids hfind hne _ _
    simp only [extractVolumeMetadata, hids, hfind, Option.map]
    rw [jsStrOr2_some_ne _ _ hne]
  · intro vi il t hil ht htne
    simp only [extractVolumeMetadata, hil, ht]
    rw [jsStrOr2_some_ne _ _ htne]
  · intro vi il t hil ht htne hlead
    simp only [extractVolumeMetadata, hil, ht]
    rw [jsStrOr2_some_ne _ _ htne]
    show some (jsReplaceFirst t "http://" "https://") = _
    rw [jsReplaceFirst_of_leading t "http://" "https://" hlead]
    rfl
  · intro vi h
    simp [extractVolumeMetadata, h]
  · intro vi il hil hsel
    simp only [extractVolumeMetadata, hil]
    rw [hsel]
  · intro vi il u hil hsel
    simp only [extractVolumeMetadata, hil]
    rw [hsel]
  · intro vi il u hil hsel hlead
    simp only [extractVolumeMetadata, hil]
    rw [hsel]
    show some (jsReplaceFirst u "http://" "https://") = _
    rw [jsReplaceFirst_of_leading u "http://" "https://" hlead]
    rfl
  · intro vi il t hil hth hst htne
    simp only [extractVolumeMetadata, hil, hst]
    rw [jsStrOr2_first_falsy il.thumbnail (some t) hth, jsStrOrNull_some_ne t htne]

/-- Witness for C6: timeouts and HTTP 403 yield `null`; for a result carrying
both identifier formats and both preview sizes, extraction returns the
13-digit ISBN and the `thumbnail` URL upgraded to `https://`; and when only
an insecure `smallThumbnail` is offered, the fallback cover also comes back
upgraded to `https://`. -/
theorem C6_catalog_fails_closed_and_prefers_rich_fields_witness :
    fetchFromGoogleBooks "Dune" (some "Frank Herbert") "key" .timeout = none
    ∧ fetchFromGoogleBooks "Dune" (some "Frank Herbert") "key" (.httpError 403) = none
    ∧ (extractVolumeMetadata gbVolume).isbn = some "9780441172719"
    ∧ (extractVolumeMetadata gbVolume).cover_url =
        some "https://books.google.com/dune.jpg"
    ∧ (extractVolumeMetadata gbVolumeSmall).cover_url =
        some "https://small.example/only.jpg" := by
  refine ⟨(C6_catalog_fails_closed_and_prefers_rich_fields "Dune"
      (some "Frank Herbert") "key").2.1,
    (C6_catalog_fails_closed_and_prefers_rich_fields "Dune"
      (some "Frank Herbert") "key").1 403, ?_, ?_, ?_⟩
  · have h := (C6_catalog_fails_closed_and_prefers_rich_fields "Dune"
      (some "Frank Herbert") "key").2.2.2.2.2.1 gbVolume
      [⟨"ISBN_10", "0441172719"⟩, ⟨"ISBN_13", "9780441172719"⟩]
      ⟨"ISBN_13", "9780441172719"⟩ ⟨"ISBN_10", "0441172719"⟩
      rfl (by decide) (by decide) (by decide) rfl
    exact h
  · have h := (C6_catalog_fails_closed_and_prefers_rich_fields "Dune"
      (some "Frank Herbert") "key").2.2.2.2.2.2.2.1 gbVolume
      ⟨some "http://books.google.com/dune.jpg", some "http://small.example/dune.jpg"⟩
      "http://books.google.com/dune.jpg" rfl rfl (by decide) (by decide)
    rw [h]
    decide
  · have h := (C6_catalog_fails_closed_and_prefers_rich_fields "Dune"
      (some "Frank Herbert") "key").2.2.2.2.2.2.2.2.2.2.2.2 gbVolumeSmall
      ⟨none, some "http://small.example/only.jpg"⟩
      "http://small.example/only.jpg" rfl rfl rfl (by decide)
    rw [h]
    decide

/-- Witness for C2: the spec's two-book scenario — the cache lookup for the
first book throws, yet both books come back in order: the first as the
fallback record (`enriched = false`, null metadata) and the second processed
normally (catalog metadata merged, `enriched = true`). -/
theorem C2_enrich_isolates_per_item_failures_witness :
    ((enrichBooks (some "api-key") lt2 oc2 ids2 [] [bookA2, bookB2]).1).map (·.book) =
      [bookA2, bookB2]
    ∧ ((enrichBooks (some "api-key") lt2 oc2 ids2 [] [bookA2, bookB2]).1)[0]? =
        some (fallbackBook bookA2)
    ∧ ((enrichBooks (some "api-key") lt2 oc2 ids2 [] [bookA2, bookB2]).1)[1]? =
        some ((enrichOne (lt2 1) (oc2 1) (ids2 1) [] bookB2).1)
    ∧ (enrichOne (lt2 1) (oc2 1) (ids2 1) [] bookB2).1 =
        ⟨bookB2, hyperionMeta.isbn, hyperionMeta.cover_url, hyperionMeta.description,
          hyperionMeta.categories, true⟩ :=
  ⟨(C2_enrich_isolates_per_item_failures (some "api-key") lt2 oc2 ids2 []
      [bookA2, bookB2] (by decide)).1,
   (C2_enrich_isolates_per_item_failures (some "api-key") lt2 oc2 ids2 []
      [bookA2, bookB2] (by decide)).2.1 0 bookA2 rfl rfl,
   (C2_enrich_isolates_per_item_failures (some "api-key") lt2 oc2 ids2 []
      [bookA2, bookB2] (by decide)).2.2.2 (by decide) 1 bookB2 rfl rfl (by decide),
   rfl⟩

/-! ## Claim C3 — the response-parser strategy chains -/

/-- Counterexample to C3 as stated: `parseAIResponse` has no strategy that
accepts "an object exposing an array-valued field" — it checks only the
`books` key in strategy 1 and has no brace-substring strategy 4.  On an
object reply keyed `recommendations` (with a second array field defeating
the bracket-substring strategy), the code returns `[]` while the claim's
described algorithm returns the `recommendations` array. -/
theorem C3_no_object_strategy_counterexample :
    parseAIResponse c3Input = []
    ∧ specC3Parser c3Input = [Json.obj [("title", Json.str "Dune")]]
    ∧ parseAIResponse c3Input ≠ specC3Parser c3Input := by
  refine ⟨rfl, rfl, ?_⟩
  intro h
  have hlen : (parseAIResponse c3Input).length = (specC3Parser c3Input).length :=
    congrArg List.length h
  rw [show (parseAIResponse c3Input).length = 0 from rfl,
    show (specC3Parser c3Input).length = 1 from rfl] at hlen
  omega

/-- C3 (amended): both parsers are total (every input yields an array) and
try their strategies in order, stopping at the first success and returning
`[]` when all fail.  `parseAIResponse` trims the input, short-circuits on
whitespace-only input, and runs: (1) whole-text JSON accepted as a bare
array or an object's `books` array; (2) the first-`[`-to-last-`]` substring;
(3) a fenced array block — and nothing else.  `parseRecommendations` runs on
the raw text: (1) trimmed whole-text JSON accepted only as a non-empty bare
array; (2) the bracket substring; (3) the trimmed fenced-block interior;
(4) the first-`{`-to-last-`}` substring's first non-empty array-valued
field — each success passing through validation, whose own exception falls
through to the next strategy. -/
theorem C3_parser_strategy_chains (s : String) :
    (∀ xs, jsTrim s ≠ "" → qwenStrategy1 (jsTrim s) = some xs →
      parseAIResponse s = xs)
    ∧ (∀ xs, jsTrim s ≠ "" → qwenStrategy1 (jsTrim s) = none →
        qwenStrategy2 (jsTrim s) = some xs → parseAIResponse s = xs)
    ∧ (∀ xs, jsTrim s ≠ "" → qwenStrategy1 (jsTrim s) = none →
        qwenStrategy2 (jsTrim s) = none → qwenStrategy3 (jsTrim s) = some xs →
        parseAIResponse s = xs)
    ∧ (qwenStrategy1 (jsTrim s) = none → qwenStrategy2 (jsTrim s) = none →
        qwenStrategy3 (jsTrim s) = none → parseAIResponse s = [])
    ∧ (jsTrim s = "" → parseAIResponse s = [])
    ∧ (∀ r, recStrategy1 s = some r → parseRecommendations s = r)
    ∧ (∀ r, recStrategy1 s = none → recStrategy2 s = some r →
        parseRecommendations s = r)
    ∧ (∀ r, recStrategy1 s = none → recStrategy2 s = none →
        recStrategy3 s = some r → parseRecommendations s = r)
    ∧ (∀ r, recStrategy1 s = none → recStrategy2 s = none →
        recStrategy3 s = none → recStrategy4 s = some r →
        parseRecommendations s = r)
    ∧ (recStrategy1 s = none → recStrategy2 s = none → recStrategy3 s = none →
        recStrategy4 s = none → parseRecommendations s = []) := by
  refine ⟨?_, ?_, ?_, ?_, ?_, ?_, ?_, ?_, ?_, ?_⟩
  · intro xs hne h1
    unfold parseAIResponse
    rw [if_neg hne, h1]
  · intro xs hne h1 h2
    unfold parseAIResponse
    rw [if_neg hne, h1, h2]
  · intro xs hne h1 h2 h3
    unfold parseAIResponse
    rw [if_neg hne, h1, h2, h3]
  · intro h1 h2 h3
    unfold parseAIResponse
    by_cases hne : jsTrim s = ""
    · rw [if_pos hne]
    · rw [if_neg hne, h1, h2, h3]
  · intro hne
    unfold parseAIResponse
    rw [if_pos hne]
  · intro r h1
    unfold parseRecommendations
    rw [h1]
  · intro r h1 h2
    unfold parseRecommendations
    rw [h1, h2]
  · intro r h1 h2 h3
    unfold parseRecommendations
    rw [h1, h2, h3]
  · intro r h1 h2 h3 h4
    unfold parseRecommendations
    rw [h1, h2, h3, h4]
  · intro h1 h2 h3 h4
    unfold parseRecommendations
    rw [h1, h2, h3, h4]

/-- Witness for the amended C3: the prose reply falls through every strategy
of both parsers to `[]`; the fenced reply is recovered (via the bracket
substring); a clean JSON-array recommendation reply is parsed and
validated. -/
theorem C3_parser_strategy_chains_witness :
    parseAIResponse proseInput = []
    ∧ parseAIResponse fencedInput =
        [Json.obj [("title", Json.str "1984"), ("author", Json.str "George Orwell"),
          ("certainty", Json.str "high")]]
    ∧ parseRecommendations proseInput = []
    ∧ parseRecommendations recArrayInput =
        [⟨"Dune", "Frank Herbert", "Epic...."⟩] :=
  ⟨(C3_parser_strategy_chains proseInput).2.2.2.1 rfl rfl rfl,
   (C3_parser_strategy_chains fencedInput).2.1 _ (by decide) rfl rfl,
   (C3_parser_strategy_chains proseInput).2.2.2.2.2.2.2.2.2 rfl rfl rfl rfl,
   (C3_parser_strategy_chains recArrayInput).2.2.2.2.2.1 _ rfl⟩

/-! ## Claim C5 — the recommendation validation pass -/

/-- Counterexample to C5 as stated: the cited `validateAndClean` caps at
`NUM_RECOMMENDATIONS = 8`, not 5 — nine valid records are cut to eight. -/
theorem C5_cap_is_eight_counterexample :
    (validateAndClean nineRecs).map List.length = some 8
    ∧ (validateAndClean nineRecs).map List.length ≠ some 5 := by
  refine ⟨rfl, ?_⟩
  intro h
  rw [show (validateAndClean nineRecs).map List.length = some 8 from rfl] at h
  simp at h

/-- A truthy (non-empty) string survives the `(value || default)` coercion. -/
theorem jsStringOrDefault_str (s d : String) (h : s ≠ "") :
    jsStringOrDefault (some (Json.str s)) d = some s := by
  have htr : jsTruthy (Json.str s) = true := by
    unfold jsTruthy
    simp [h]
  show (if jsTruthy (Json.str s) = true then some s else some d) = some s
  rw [htr]
  rfl

/-- Helper: lowercasing distributes over string concatenation. -/
theorem jsToLower_append (x y : String) : jsToLower (x ++ y) = jsToLower x ++ jsToLower y :=
  congrArg String.mk (List.map_append Char.toLower x.data y.data)

/-- Helper: a string always ends with its appended suffix. -/
theorem strEndsWith_append (u v : String) : strEndsWith (u ++ v) v = true := by
  unfold strEndsWith
  show decide ((u.data ++ v.data).drop ((u.data ++ v.data).length - v.data.length)
    = v.data) = true
  rw [List.length_append]
  have h : u.data.length + v.data.length - v.data.length = u.data.length := by omega
  rw [h, List.drop_left]
  simp

/-- C5 (amended): `validateAndClean` drops entries without a non-empty
string title, cleans each survivor (author defaulting to "Unknown", the
trailing case-insensitive " by <author>" suffix stripped when the author is
known, the reason truncated at the last sentence boundary within the first
200 characters when that boundary lies after index 80 and otherwise
hard-truncated with an appended ellipsis), and caps the result at
`NUM_RECOMMENDATIONS = 8` entries (not 5). -/
theorem C5_validate_cleans_and_caps_at_eight (recs : List Json) :
    (∀ out, validateAndClean recs = some out → out.length ≤ 8)
    ∧ (∀ kept cleaned, jsFilterM titleOk recs = some kept →
        jsMapM cleanRec kept = some cleaned →
        validateAndClean recs = some (cleaned.take 8))
    ∧ (∀ t r : String,
        cleanRec (Json.obj [("title", Json.str t), ("reason", Json.str r)]) =
          some ⟨jsTrim t, "Unknown", truncateReason r⟩)
    ∧ (∀ bt a r : String, jsTrim a = a → a ≠ "Unknown" → a ≠ "" →
        jsTrim (bt ++ " by " ++ a) = bt ++ " by " ++ a →
        cleanRec (Json.obj [("title", Json.str (bt ++ " by " ++ a)),
            ("author", Json.str a), ("reason", Json.str r)]) =
          some ⟨jsTrim bt, a, truncateReason r⟩)
    ∧ (∀ reason : String,
        (80 < sentenceBoundary ((jsTrim reason).data.take 200) →
          truncateReason reason =
            ⟨(jsTrim reason).data.take
              (sentenceBoundary ((jsTrim reason).data.take 200) + 1).toNat⟩)
        ∧ (sentenceBoundary ((jsTrim reason).data.take 200) ≤ 80 →
          truncateReason reason = jsTrim ⟨(jsTrim reason).data.take 200⟩ ++ "...")) := by
  refine ⟨?_, ?_, ?_, ?_, ?_⟩
  · intro out h
    unfold validateAndClean at h
    rcases hk : jsFilterM titleOk recs with _ | kept <;> rw [hk] at h
    · exact absurd h (by simp)
    · have h2 : (jsMapM cleanRec kept).bind (fun cleaned => some (cleaned.take 8)) =
          some out := h
      rcases hm : jsMapM cleanRec kept with _ | cleaned <;> rw [hm] at h2
      · exact absurd h2 (by simp)
      · have h3 : cleaned.take 8 = out := by
          simpa using h2
        rw [← h3]
        exact List.length_take_le 8 cleaned
  · intro kept cleaned hk hm
    unfold validateAndClean
    rw [hk]
    show (jsMapM cleanRec kept).bind (fun cleaned => some (cleaned.take 8)) = _
    rw [hm]
    rfl
  · intro t r
    by_cases hr : r = ""
    · subst hr
      rfl
    · show (jsStringOrDefault (some (Json.str r)) "").bind
          (fun reason =>
            some (⟨jsTrim t, "Unknown", truncateReason reason⟩ : CleanRec)) =
        some (⟨jsTrim t, "Unknown", truncateReason r⟩ : CleanRec)
      rw [jsStringOrDefault_str r "" hr]
      rfl
  · intro bt a r ha1 ha2 ha3 ht
    show (jsStringOrDefault (some (Json.str a)) "Unknown").bind (fun author0 =>
        (jsStringOrDefault (some (Json.str r)) "").bind (fun reason =>
          some (⟨(if jsTrim author0 ≠ "Unknown" then
              (if strEndsWith (jsToLower (jsTrim (bt ++ " by " ++ a)))
                  (jsToLower (" by " ++ jsTrim author0)) then
                jsTrim ⟨(jsTrim (bt ++ " by " ++ a)).data.take
                  ((jsTrim (bt ++ " by " ++ a)).data.length -
                    (" by " ++ jsTrim author0).data.length)⟩
              else jsTrim (bt ++ " by " ++ a))
            else jsTrim (bt ++ " by " ++ a)),
            jsTrim author0, truncateReason reason⟩ : CleanRec))) =
      some (⟨jsTrim bt, a, truncateReason r⟩ : CleanRec)
    rw [jsStringOrDefault_str a "Unknown" ha3]
    show (jsStringOrDefault (some (Json.str r)) "").bind (fun reason =>
        some (⟨(if jsTrim a ≠ "Unknown" then
            (if strEndsWith (jsToLower (jsTrim (bt ++ " by " ++ a)))
                (jsToLower (" by " ++ jsTrim a)) then
              jsTrim ⟨(jsTrim (bt ++ " by " ++ a)).data.take
                ((jsTrim (bt ++ " by " ++ a)).data.length -
                  (" by " ++ jsTrim a).data.length)⟩
            else jsTrim (bt ++ " by " ++ a))
          else jsTrim (bt ++ " by " ++ a)), jsTrim a, truncateReason reason⟩ : CleanRec)) =
      some (⟨jsTrim bt, a, truncateReason r⟩ : CleanRec)
    rw [ha1, ht]
    have hassoc : bt ++ " by " ++ a = bt ++ (" by " ++ a) :=
      congrArg String.mk (List.append_assoc bt.data " by ".data a.data)
    have hends : strEndsWith (jsToLower (bt ++ " by " ++ a)) (jsToLower (" by " ++ a))
        = true := by
      rw [hassoc, jsToLower_append]
      exact strEndsWith_append (jsToLower bt) (jsToLower (" by " ++ a))
    have htake : (bt ++ " by " ++ a).data.take
        ((bt ++ " by " ++ a).data.length - (" by " ++ a).data.length) = bt.data := by
      have hdata : (bt ++ " by " ++ a).data = bt.data ++ (" by " ++ a).data :=
        List.append_assoc bt.data " by ".data a.data
      rw [hdata, List.length_append]
      have hlen : bt.data.length + (" by " ++ a).data.length -
          (" by " ++ a).data.length = bt.data.length := by omega
      rw [hlen, List.take_left]
    have htitle : (if a ≠ "Unknown" then
        (if strEndsWith (jsToLower (bt ++ " by " ++ a)) (jsToLower (" by " ++ a)) then
          jsTrim ⟨(bt ++ " by " ++ a).data.take
            ((bt ++ " by " ++ a).data.length - (" by " ++ a).data.length)⟩
        else bt ++ " by " ++ a)
      else bt ++ " by " ++ a) = jsTrim bt := by
      rw [if_pos ha2, if_pos hends, htake]
    rw [htitle]
    by_cases hr : r = ""
    · subst hr
      rfl
    · rw [jsStringOrDefault_str r "" hr]
      rfl
  · intro reason
    constructor
    · intro h
      unfold truncateReason
      rw [if_pos h]
    · intro h
      unfold truncateReason
      rw [if_neg (by omega)]

/-- Witness for the amended C5: nine valid records are cleaned and capped to
the eight `eightCleaned` entries; a record whose title duplicates
"by Frank Herbert" has the suffix stripped and keeps its author. -/
theorem C5_validate_cleans_and_caps_at_eight_witness :
    eightCleaned.length ≤ 8
    ∧ validateAndClean nineRecs = some eightCleaned
    ∧ cleanRec (Json.obj [("title", Json.str ("Dune" ++ " by " ++ "Frank Herbert")),
        ("author", Json.str "Frank Herbert"), ("reason", Json.str "Epic story.")]) =
        some ⟨jsTrim "Dune", "Frank Herbert", truncateReason "Epic story."⟩ :=
  ⟨(C5_validate_cleans_and_caps_at_eight nineRecs).1 eightCleaned rfl,
   rfl,
   (C5_validate_cleans_and_caps_at_eight nineRecs).2.2.2.1 "Dune" "Frank Herbert"
     "Epic story." (by decide) (by decide) (by decide) (by decide)⟩

end LibreScan
